import Mathlib

/-!
# PCF8523 mini driver: the `mini_time` attribute

A shallow embedding of `src/PCF8523/pcf8523_mini.c`: the BCD helpers
`dec2bcd` / `bcd2dec`, the read handler `mini_time_show` and the write
handler `mini_time_store`, together with the pieces of their environment
they call into (the kernel's `sscanf` / `scnprintf` and the SMBus transfer
primitives acting on the chip's register file).

Conventions.
* A `u8` is a `Fin 256`; a C `int` is an `Int`, and every place where C
  arithmetic looks at the bit pattern of an `int` goes through `int_bits`
  (32-bit two's complement). Narrowing conversions are explicit (`to_u8`,
  `to_int`, `to_s64`).
* Text is a `List Char`, one `Char` per byte of the C buffer.
* Stateful code passes the bus state explicitly and returns the new one.
-/

namespace PCF8523

/-! ## Machine integers -/

/-- A C `u8`. -/
abbrev u8 := Fin 256

/-- Conversion to `u8`: the low eight bits. -/
def to_u8 (n : Nat) : u8 := ⟨n % 256, Nat.mod_lt n (by decide)⟩

/-- The 32-bit two's-complement bit pattern of a C `int`. -/
def int_bits (x : Int) : Nat := (x % 2 ^ 32).toNat

/-- Conversion to C `int`: the representative of `x` modulo `2^32` in `[-2^31, 2^31)`. -/
def to_int (x : Int) : Int := (x + 2 ^ 31) % 2 ^ 32 - 2 ^ 31

/-- Conversion to C `long long`: the representative of `x` modulo `2^64` in `[-2^63, 2^63)`. -/
def to_s64 (x : Int) : Int := (x + 2 ^ 63) % 2 ^ 64 - 2 ^ 63

/-! ## Constants -/

def REG_SECONDS : u8 := 0x03
def REG_MINUTES : u8 := 0x04
def REG_HOURS : u8 := 0x05
def REG_DAYS : u8 := 0x06
def REG_WEEKDAY : u8 := 0x07
def REG_MONTHS : u8 := 0x08
def REG_YEARS : u8 := 0x09

/-- The errno `EINVAL` of the kernel headers (`errno-base.h`). -/
def EINVAL : Int := 22

/-- The page size bounding a sysfs buffer (4 KiB pages). -/
def PAGE_SIZE : Nat := 4096

/-! ## BCD helpers (lines 24-25) -/

/-- The helper `dec2bcd`: `(u8)(((d / 10) << 4) | (d % 10))`.
C division and remainder truncate towards zero; the shift and the or act on
the 32-bit pattern of the `int` operands; the cast keeps the low byte. -/
def dec2bcd (d : Int) : u8 :=
  to_u8 ((((int_bits (d.tdiv 10)) <<< 4) % 2 ^ 32) ||| int_bits (d.tmod 10))

/-- The helper `bcd2dec`: `((b >> 4) * 10) + (b & 0x0F)`. -/
def bcd2dec (b : u8) : Int := (((b.val >>> 4) * 10 + (b.val &&& 0x0F) : Nat) : Int)

/-! ## Kernel text helpers: `scnprintf` -/

/-- The conversion `%0<width>d` (with `width = 0` plain `%d`) of `vsnprintf`:
sign, then zero padding up to the field width, then the decimal digits. -/
def number (field_width : Nat) (num : Int) : List Char :=
  let sign : List Char := if num < 0 then ['-'] else []
  let digits := Nat.toDigits 10 num.natAbs
  sign ++ List.replicate (field_width - sign.length - digits.length) '0' ++ digits

/-- The kernel's `scnprintf(buf, size, ...)` once the format is expanded to
`text`: at most `size - 1` characters are stored (a terminating NUL follows)
and their number is returned. -/
def scnprintf (size : Nat) (text : List Char) : List Char := text.take (size - 1)

/-! ## Kernel text helpers: `sscanf` -/

/-- The kernel's `isspace` (the `_S` entries of `_ctype`). -/
def isspace (c : Char) : Bool :=
  c.toNat = 32 || (9 ≤ c.toNat && c.toNat ≤ 13) || c.toNat = 160

/-- The kernel's `isdigit`. -/
def isdigit (c : Char) : Bool := 48 ≤ c.toNat && c.toNat ≤ 57

/-- The kernel's `skip_spaces`. -/
def skip_spaces (str : List Char) : List Char := str.dropWhile isspace

/-- The characters of a C string: those before the first NUL of the buffer. -/
def c_str (buf : List Char) : List Char := buf.takeWhile (fun c => c.toNat ≠ 0)

/-- The digit loop of `_parse_integer_limit` in base 10: accumulates decimal
digits into an `unsigned long long` (wrapping modulo `2^64`) and returns the
value with the unread rest of the string. No field width is given in the
format, so the character limit is `INT_MAX`, beyond any sysfs buffer. -/
def parse_integer : List Char → Nat → Nat × List Char
  | [], res => (res, [])
  | c :: s, res =>
    if isdigit c then parse_integer s ((res * 10 + (c.toNat - 48)) % 2 ^ 64)
    else (res, c :: s)

/-- The kernel's `simple_strntoull` in base 10. -/
def simple_strntoull (cp : List Char) : Nat × List Char := parse_integer cp 0

/-- The kernel's `simple_strntoll` in base 10: a leading `-` negates. -/
def simple_strntoll (cp : List Char) : Int × List Char :=
  match cp with
  | c :: rest =>
    if c = '-' then
      let r := simple_strntoull rest
      (to_s64 (-(r.1 : Int)), r.2)
    else
      let r := simple_strntoull cp
      (to_s64 (r.1 : Int), r.2)
  | [] => (0, [])

/-- One item of a scan format. -/
inductive Directive
  | space
  | lit (c : Char)
  | d
  deriving DecidableEq, Repr

/-- Splits a scan format into its items: white space, `%d`, ordinary
characters. -/
def directives : List Char → List Directive
  | [] => []
  | c :: fmt =>
    if isspace c then Directive.space :: directives fmt
    else if c = '%' then
      match fmt with
      | e :: fmt2 => if e = 'd' then Directive.d :: directives fmt2 else []
      | [] => []
    else Directive.lit c :: directives fmt

/-- The main loop of the kernel's `vsscanf`, for formats made of white space,
ordinary characters and `%d`. Returns the values stored, in order; their
number is the return value of `sscanf`.
* white space in the format skips any amount of white space in the input,
  including none;
* an ordinary character must match the next input character exactly;
* `%d` stops at the end of the input, else skips white space, requires a
  digit (after an optional `-`), converts with `simple_strntoll` and stores
  the result into an `int`. -/
def vsscanf : List Directive → List Char → List Int
  | [], _ => []
  | Directive.space :: fmt, str => vsscanf fmt (skip_spaces str)
  | Directive.lit c :: fmt, str =>
    match str with
    | x :: rest => if x = c then vsscanf fmt rest else []
    | [] => []
  | Directive.d :: fmt, str =>
    if str = [] then []
    else
      let str1 := skip_spaces str
      let digit : Option Char :=
        match str1 with
        | x :: rest => if x = '-' then rest.head? else some x
        | [] => none
      match digit with
      | none => []
      | some dg =>
        if isdigit dg then
          let r := simple_strntoll str1
          to_int r.1 :: vsscanf fmt r.2
        else []

/-- The kernel's `sscanf(buf, fmt, ...)`: the values stored by the conversions
that succeeded. -/
def sscanf (buf : List Char) (fmt : String) : List Int :=
  vsscanf (directives fmt.toList) (c_str buf)

/-! ## The bus and the chip -/

/-- An SMBus transfer issued to the chip. -/
inductive Transfer
  | write_byte_data (command value : u8)
  | read_i2c_block_data (command : u8) (length : Nat)
  | write_i2c_block_data (command : u8) (values : List u8)
  deriving DecidableEq, Repr

/-- Modelled from the spec: the addressed serial bus with the chip behind it
(section 6: a read primitive that returns exactly the requested bytes or an
error, a write primitive that writes a block atomically or returns an error).
* `regs` is the chip's register file;
* `status` scripts the outcome of the coming transfers, one entry per
  transfer: a negative entry is the errno the transfer fails with, any other
  entry (or none left) lets it succeed;
* `log` lists the transfers issued so far, oldest first. -/
structure Bus where
  regs : Nat → u8
  status : List Int
  log : List Transfer

/-- Puts a transfer on the bus: logs it and takes its scripted outcome. -/
def Bus.issue (bus : Bus) (t : Transfer) : Int × Bus :=
  (bus.status.headD 0, { bus with status := bus.status.tail, log := bus.log ++ [t] })

/-- The register file after a block of `values` is stored from register
`start` on (the chip increments its register pointer after every byte). -/
def write_regs (regs : Nat → u8) (start : Nat) (values : List u8) : Nat → u8 :=
  fun r => if start ≤ r ∧ r < start + values.length then values.getD (r - start) 0 else regs r

/-- The bytes of `length` consecutive registers from `start` on. -/
def read_regs (regs : Nat → u8) (start : Nat) (length : Nat) : List u8 :=
  (List.range length).map (fun i => regs (start + i))

/-- The kernel's SMBus "write byte data" transfer
`i2c_smbus_write_byte_data(client, command, value)`: the register address
`command` and the data byte `value` go out in one message, and the chip stores
`value` in that register. Returns 0, or a negative errno and leaves the
register file alone. -/
def i2c_smbus_write_byte_data (bus : Bus) (command value : u8) : Int × Bus :=
  let r := bus.issue (Transfer.write_byte_data command value)
  if r.1 < 0 then (r.1, r.2)
  else (0, { r.2 with regs := write_regs r.2.regs command.val [value] })

/-- Modelled from the spec: the block read primitive of section 6. Returns the
number of bytes read with the bytes, or a negative errno and no bytes. -/
def i2c_smbus_read_i2c_block_data (bus : Bus) (command : u8) (length : Nat) :
    Int × List u8 × Bus :=
  let r := bus.issue (Transfer.read_i2c_block_data command length)
  if r.1 < 0 then (r.1, [], r.2)
  else ((length : Int), read_regs r.2.regs command.val length, r.2)

/-- Modelled from the spec: the block write primitive of section 6. Returns 0
after storing the block, or a negative errno and leaves the register file
alone. -/
def i2c_smbus_write_i2c_block_data (bus : Bus) (command : u8) (values : List u8) :
    Int × Bus :=
  let r := bus.issue (Transfer.write_i2c_block_data command values)
  if r.1 < 0 then (r.1, r.2)
  else (0, { r.2 with regs := write_regs r.2.regs command.val values })

/-! ## The read handler `mini_time_show` (lines 27-53) -/

/-- The local variables `sec`, `min`, `hour`, `day`, `wk`, `mon`, `yr` of
`mini_time_show`. -/
structure Fields where
  sec : Int
  min : Int
  hour : Int
  day : Int
  wk : Int
  mon : Int
  yr : Int
  deriving DecidableEq, Repr

/-- Lines 43-49 of `mini_time_show`: the fields decoded from `data[0..6]`. -/
def mini_time_show_decode (data : List u8) : Fields :=
  { sec := bcd2dec (to_u8 ((data.getD 0 0).val &&& 0x7F))
    min := bcd2dec (to_u8 ((data.getD 1 0).val &&& 0x7F))
    hour := bcd2dec (to_u8 ((data.getD 2 0).val &&& 0x3F))
    day := bcd2dec (to_u8 ((data.getD 3 0).val &&& 0x3F))
    wk := (((data.getD 4 0).val &&& 0x07 : Nat) : Int)
    mon := bcd2dec (to_u8 ((data.getD 5 0).val &&& 0x1F))
    yr := bcd2dec (data.getD 6 0) }

/-- Lines 51-52 of `mini_time_show`: the text stored by
`scnprintf(buf, PAGE_SIZE, "20%02d-%02d-%02d %02d:%02d:%02d (wk=%d)\n", yr, mon, day, hour, min, sec, wk)`. -/
def mini_time_show_format (f : Fields) : List Char :=
  scnprintf PAGE_SIZE
    (['2', '0'] ++ number 2 f.yr ++ ['-'] ++ number 2 f.mon ++ ['-'] ++ number 2 f.day
      ++ [' '] ++ number 2 f.hour ++ [':'] ++ number 2 f.min ++ [':'] ++ number 2 f.sec
      ++ [' ', '(', 'w', 'k', '='] ++ number 0 f.wk ++ [')', '\n'])

/-- Lines 43-52 of `mini_time_show`: the text produced from the block in `data`. -/
def mini_time_show_text (data : List u8) : List Char :=
  mini_time_show_format (mini_time_show_decode data)

/-- The read handler `mini_time_show`: the value returned, the text stored in
`buf` and the bus afterwards. -/
def mini_time_show (bus : Bus) : Int × List Char × Bus :=
  let start := REG_SECONDS
  let w := i2c_smbus_write_byte_data bus start 0
  if w.1 < 0 then (w.1, [], w.2)
  else
    let r := i2c_smbus_read_i2c_block_data w.2 REG_SECONDS 7
    if r.1 < 0 then (r.1, [], r.2.2)
    else
      let text := mini_time_show_text r.2.1
      ((text.length : Int), text, r.2.2)

/-! ## The write handler `mini_time_store` (lines 56-85) -/

/-- Lines 72-78 of `mini_time_store`: the block `out[0..6]` built from the
scanned integers. -/
def mini_time_store_encode (Y M D h m s : Int) : List u8 :=
  [ to_u8 ((dec2bcd s).val &&& 0x7F),
    to_u8 ((dec2bcd m).val &&& 0x7F),
    to_u8 ((dec2bcd h).val &&& 0x3F),
    to_u8 ((dec2bcd D).val &&& 0x3F),
    0,
    dec2bcd ((int_bits M &&& 0x1F : Nat) : Int),
    dec2bcd (Y.tmod 100) ]

/-- Line 65 of `mini_time_store`: the integers stored by
`sscanf(buf, "%d-%d-%d %d:%d:%d", &Y, &M, &D, &h, &m, &s)`; the call returns
their number. -/
def mini_time_store_scan (buf : List Char) : List Int :=
  sscanf buf "%d-%d-%d %d:%d:%d"

/-- The write handler `mini_time_store` on the buffer `buf` of `count` bytes:
the value returned and the bus afterwards. `count` is a sysfs write length,
at most `PAGE_SIZE`, so its conversion to `ssize_t` keeps its value. -/
def mini_time_store (bus : Bus) (buf : List Char) (count : Nat) : Int × Bus :=
  match mini_time_store_scan buf with
  | [Y, M, D, h, m, s] =>
    if Y < 2000 ∨ Y > 2099 then (-EINVAL, bus)
    else
      let out := mini_time_store_encode Y M D h m s
      let w := i2c_smbus_write_i2c_block_data bus REG_SECONDS out
      if w.1 < 0 then (w.1, w.2)
      else ((count : Int), w.2)
  | _ => (-EINVAL, bus)

/-! ## Vocabulary of the statements -/

/-- A bus with all registers zero, no scripted failure and nothing issued yet. -/
def idle_bus : Bus := ⟨fun _ => 0, [], []⟩

/-- The bytes `a` and `b` have the same bits `0 .. n-1`: they differ at most
in the bits from `n` upwards. -/
def agree_below (n : Nat) (a b : u8) : Prop :=
  ∀ k, k < n → a.val.testBit k = b.val.testBit k

/-- Text made of white space only (possibly empty). -/
def is_white_space (w : List Char) : Prop := ∀ c ∈ w, isspace c = true

/-- An integer as text: an optional `-` and at least one decimal digit. -/
def is_integer_text (n : List Char) : Prop :=
  ∃ ds, ds ≠ [] ∧ (∀ c ∈ ds, isdigit c = true) ∧ (n = ds ∨ n = '-' :: ds)

/-- Reads an integer as text (an optional `-` and all the digits that follow,
at least one) from the front of `s` and gives the rest. -/
def take_integer_text (s : List Char) : Option (List Char) :=
  let t := match s with
    | c :: r => if c = '-' then r else s
    | [] => s
  match t with
  | c :: _ => if isdigit c then some (t.dropWhile isdigit) else none
  | [] => none

/-- Reads the character `c` from the front of `s` and gives the rest. -/
def take_char (c : Char) (s : List Char) : Option (List Char) :=
  match s with
  | x :: r => if x = c then some r else none
  | [] => none

/-- The layout in the words of the specification, "YYYY-MM-DD hh:mm:ss": six
integers separated by `-`, `-`, one space, `:` and `:`, nothing before,
nothing else between and nothing after. -/
def strict_layout (buf : List Char) : Bool :=
  (do
    let s ← take_integer_text buf
    let s ← take_char '-' s
    let s ← take_integer_text s
    let s ← take_char '-' s
    let s ← take_integer_text s
    let s ← take_char ' ' s
    let s ← take_integer_text s
    let s ← take_char ':' s
    let s ← take_integer_text s
    let s ← take_char ':' s
    take_integer_text s) == some []

/-- The layout the scan of `mini_time_store` goes by: six integers as text,
each after any amount of white space (none included), `-` right after the
first and the second, `:` right after the fourth and the fifth, and anything
after the sixth. Where no white space stands between the third and the fourth
integer, the fourth begins with its `-`. -/
def scan_layout (buf : List Char) : Prop :=
  ∃ w1 n1 w2 n2 w3 n3 w4 n4 w5 n5 w6 n6 rest,
    (is_white_space w1 ∧ is_white_space w2 ∧ is_white_space w3 ∧
      is_white_space w4 ∧ is_white_space w5 ∧ is_white_space w6) ∧
    (is_integer_text n1 ∧ is_integer_text n2 ∧ is_integer_text n3 ∧
      is_integer_text n4 ∧ is_integer_text n5 ∧ is_integer_text n6) ∧
    (w4 ≠ [] ∨ ∃ t, n4 = '-' :: t) ∧
    buf = w1 ++ n1 ++ '-' :: (w2 ++ n2 ++ '-' :: (w3 ++ n3 ++ (w4 ++ n4 ++
            ':' :: (w5 ++ n5 ++ ':' :: (w6 ++ n6 ++ rest)))))


/-- The character of the decimal digit `n`. -/
def dec_digit (n : Int) : Char := Char.ofNat (48 + n.toNat)

/-- The two decimal digits of `v`, tens first. -/
def two_digits (v : Int) : List Char := [dec_digit (v / 10), dec_digit (v % 10)]

/-- The text "20YY-MM-DD hh:mm:ss (wk=W)" with a newline, where YY is the text
`yy`, MM, DD, hh, mm, ss are the two digits of the fields of `f` and W is the
digit of its weekday. -/
def time_text (yy : List Char) (f : Fields) : List Char :=
  ['2', '0'] ++ yy ++ ['-'] ++ two_digits f.mon ++ ['-'] ++ two_digits f.day
    ++ [' '] ++ two_digits f.hour ++ [':'] ++ two_digits f.min ++ [':'] ++ two_digits f.sec
    ++ [' ', '(', 'w', 'k', '='] ++ [dec_digit f.wk] ++ [')', '\n']

/-- A register file with the block of 2024-03-15 08:30:45 in the time registers
0x03 to 0x09 and zero elsewhere. -/
def regs_2024 : Nat → u8 :=
  write_regs (fun _ => 0) 3 [0x45, 0x30, 0x08, 0x15, 0x00, 0x03, 0x24]

/-- A byte whose two nibbles are both at most 9. -/
def bcd_byte (b : u8) : Prop := b.val >>> 4 ≤ 9 ∧ b.val &&& 0x0F ≤ 9

/-! ## Lemmas on the BCD helpers under the field masks -/

/-- Seconds and minutes: packing, write mask `0x7F`, read mask `0x7F` and
unpacking give back every value from 0 to 79. -/
theorem bcd_mask7F_round_trip (d : Int) (h0 : 0 ≤ d) (h1 : d ≤ 79) :
    bcd2dec (to_u8 ((to_u8 ((dec2bcd d).val &&& 0x7F)).val &&& 0x7F)) = d := by
  interval_cases d <;> rfl

/-- Hours and days: packing, write mask `0x3F`, read mask `0x3F` and unpacking
give back every value from 0 to 39. -/
theorem bcd_mask3F_round_trip (d : Int) (h0 : 0 ≤ d) (h1 : d ≤ 39) :
    bcd2dec (to_u8 ((to_u8 ((dec2bcd d).val &&& 0x3F)).val &&& 0x3F)) = d := by
  interval_cases d <;> rfl

/-- Months: masking with `0x1F`, packing, read mask `0x1F` and unpacking give
back every value from 0 to 19. -/
theorem bcd_month_round_trip (d : Int) (h0 : 0 ≤ d) (h1 : d ≤ 19) :
    bcd2dec (to_u8 ((dec2bcd ((int_bits d &&& 0x1F : Nat) : Int)).val &&& 0x1F)) = d := by
  interval_cases d <;> rfl

/-- Years: the two digits stored for a year of the window decode to that year. -/
theorem bcd_year_round_trip (Y : Int) (h0 : 2000 ≤ Y) (h1 : Y ≤ 2099) :
    2000 + bcd2dec (dec2bcd (Y.tmod 100)) = Y := by
  interval_cases Y <;> rfl

/-! ## Lemmas on `mini_time_store` -/

/-- The handler once the scan has stored six integers. -/
theorem mini_time_store_of_scan (bus : Bus) (buf : List Char) (count : Nat)
    (Y M D h m s : Int) (hscan : mini_time_store_scan buf = [Y, M, D, h, m, s]) :
    mini_time_store bus buf count =
      if Y < 2000 ∨ Y > 2099 then (-EINVAL, bus)
      else if (i2c_smbus_write_i2c_block_data bus REG_SECONDS
                (mini_time_store_encode Y M D h m s)).1 < 0 then
        i2c_smbus_write_i2c_block_data bus REG_SECONDS (mini_time_store_encode Y M D h m s)
      else ((count : Int),
        (i2c_smbus_write_i2c_block_data bus REG_SECONDS
          (mini_time_store_encode Y M D h m s)).2) := by
  simp only [mini_time_store, hscan]

/-- The handler when the scan stores another number of integers than six. -/
theorem mini_time_store_of_no_scan (bus : Bus) (buf : List Char) (count : Nat)
    (hscan : (mini_time_store_scan buf).length ≠ 6) :
    mini_time_store bus buf count = (-EINVAL, bus) := by
  unfold mini_time_store
  split
  · rename_i heq
    rw [heq] at hscan
    simp at hscan
  · rfl

/-- The block write logs exactly one transfer, whatever its outcome. -/
theorem write_block_log (bus : Bus) (command : u8) (values : List u8) :
    (i2c_smbus_write_i2c_block_data bus command values).2.log
      = bus.log ++ [Transfer.write_i2c_block_data command values] := by
  simp only [i2c_smbus_write_i2c_block_data, Bus.issue]
  split_ifs <;> rfl

/-- With six integers scanned and the year in the window the handler issues the
block write of the encoded fields, and nothing else. -/
theorem mini_time_store_log (bus : Bus) (buf : List Char) (count : Nat)
    (Y M D h m s : Int) (hscan : mini_time_store_scan buf = [Y, M, D, h, m, s])
    (hwin : ¬ (Y < 2000 ∨ Y > 2099)) :
    (mini_time_store bus buf count).2.log
      = bus.log ++ [Transfer.write_i2c_block_data REG_SECONDS
          (mini_time_store_encode Y M D h m s)] := by
  rw [mini_time_store_of_scan bus buf count Y M D h m s hscan, if_neg hwin]
  split_ifs <;> exact write_block_log _ _ _


/-! ## Claims -/

/-- C1. Encode/decode round trip on valid timestamps: for a year in
[2000,2099], month in [1,12], day in [1,31], hour in [0,23], minute and second
in [0,59], decoding the block built by `mini_time_store` gives back the year
(as 2000 + YY), month, day, hour, minute and second, and weekday 0. -/
theorem C1_round_trip_valid (Y M D h m s : Int)
    (hY : 2000 ≤ Y ∧ Y ≤ 2099) (hM : 1 ≤ M ∧ M ≤ 12) (hD : 1 ≤ D ∧ D ≤ 31)
    (hh : 0 ≤ h ∧ h ≤ 23) (hm : 0 ≤ m ∧ m ≤ 59) (hs : 0 ≤ s ∧ s ≤ 59) :
    2000 + (mini_time_show_decode (mini_time_store_encode Y M D h m s)).yr = Y ∧
    (mini_time_show_decode (mini_time_store_encode Y M D h m s)).mon = M ∧
    (mini_time_show_decode (mini_time_store_encode Y M D h m s)).day = D ∧
    (mini_time_show_decode (mini_time_store_encode Y M D h m s)).hour = h ∧
    (mini_time_show_decode (mini_time_store_encode Y M D h m s)).min = m ∧
    (mini_time_show_decode (mini_time_store_encode Y M D h m s)).sec = s ∧
    (mini_time_show_decode (mini_time_store_encode Y M D h m s)).wk = 0 := by
  refine ⟨?_, ?_, ?_, ?_, ?_, ?_, ?_⟩
  · exact bcd_year_round_trip Y hY.1 hY.2
  · exact bcd_month_round_trip M (by omega) (by omega)
  · exact bcd_mask3F_round_trip D (by omega) (by omega)
  · exact bcd_mask3F_round_trip h hh.1 (by omega)
  · exact bcd_mask7F_round_trip m hm.1 (by omega)
  · exact bcd_mask7F_round_trip s hs.1 (by omega)
  · show (((0 : u8).val &&& 0x07 : Nat) : Int) = 0
    decide

/-- Witness of C1 at 2024-03-15 08:30:45. -/
theorem C1_round_trip_valid_witness :
    2000 + (mini_time_show_decode (mini_time_store_encode 2024 3 15 8 30 45)).yr = 2024 ∧
    (mini_time_show_decode (mini_time_store_encode 2024 3 15 8 30 45)).mon = 3 ∧
    (mini_time_show_decode (mini_time_store_encode 2024 3 15 8 30 45)).day = 15 ∧
    (mini_time_show_decode (mini_time_store_encode 2024 3 15 8 30 45)).hour = 8 ∧
    (mini_time_show_decode (mini_time_store_encode 2024 3 15 8 30 45)).min = 30 ∧
    (mini_time_show_decode (mini_time_store_encode 2024 3 15 8 30 45)).sec = 45 ∧
    (mini_time_show_decode (mini_time_store_encode 2024 3 15 8 30 45)).wk = 0 :=
  C1_round_trip_valid 2024 3 15 8 30 45 (by decide) (by decide) (by decide) (by decide)
    (by decide) (by decide)

/-- C2. BCD round trip: for every integer d with 0 ≤ d ≤ 99,
`bcd2dec (dec2bcd d) = d`, and `dec2bcd d` has the tens digit of d in its high
nibble and the ones digit in its low nibble. -/
theorem C2_bcd_round_trip (d : Int) (h0 : 0 ≤ d) (h1 : d ≤ 99) :
    bcd2dec (dec2bcd d) = d ∧
    (((dec2bcd d).val >>> 4 : Nat) : Int) = d / 10 ∧
    (((dec2bcd d).val &&& 0x0F : Nat) : Int) = d % 10 := by
  interval_cases d <;> decide

/-- Witness of C2 at d = 59. -/
theorem C2_bcd_round_trip_witness :
    (0 : Int) ≤ 59 ∧ (59 : Int) ≤ 99 ∧ bcd2dec (dec2bcd 59) = 59 ∧
    (((dec2bcd 59).val >>> 4 : Nat) : Int) = 59 / 10 ∧
    (((dec2bcd 59).val &&& 0x0F : Nat) : Int) = 59 % 10 :=
  ⟨by decide, by decide, C2_bcd_round_trip 59 (by decide) (by decide)⟩

/-- C3. Worked example: on "2024-03-15 08:30:45" the scan stores 2024, 3, 15,
8, 30, 45, the block built is [0x45, 0x30, 0x08, 0x15, 0x00, 0x03, 0x24], that
block is what `mini_time_store` puts on the bus from register 0x03, and the
decoding and formatting of `mini_time_show` turn that block into
"2024-03-15 08:30:45 (wk=0)" followed by one newline. -/
theorem C3_worked_example (bus : Bus) (count : Nat) :
    mini_time_store_scan "2024-03-15 08:30:45".toList = [2024, 3, 15, 8, 30, 45] ∧
    mini_time_store_encode 2024 3 15 8 30 45 = [0x45, 0x30, 0x08, 0x15, 0x00, 0x03, 0x24] ∧
    (mini_time_store bus "2024-03-15 08:30:45".toList count).2.log
      = bus.log ++ [Transfer.write_i2c_block_data REG_SECONDS
          [0x45, 0x30, 0x08, 0x15, 0x00, 0x03, 0x24]] ∧
    mini_time_show_text [0x45, 0x30, 0x08, 0x15, 0x00, 0x03, 0x24]
      = "2024-03-15 08:30:45 (wk=0)\n".toList := by
  have hscan : mini_time_store_scan "2024-03-15 08:30:45".toList = [2024, 3, 15, 8, 30, 45] := by
    decide
  have henc : mini_time_store_encode 2024 3 15 8 30 45
      = [0x45, 0x30, 0x08, 0x15, 0x00, 0x03, 0x24] := by decide
  refine ⟨hscan, henc, ?_, by decide⟩
  rw [mini_time_store_log bus _ count 2024 3 15 8 30 45 hscan (by decide), henc]

/-- C4. Year window: when the scan stores six integers (Y,M,D,h,m,s),
`mini_time_store` rejects the input (returns -EINVAL with the bus untouched)
exactly when Y < 2000 or Y > 2099; with Y in the window the block written is
the encoding of the scanned integers themselves. -/
theorem C4_year_window (bus : Bus) (buf : List Char) (count : Nat) (Y M D h m s : Int)
    (hscan : mini_time_store_scan buf = [Y, M, D, h, m, s]) :
    (mini_time_store bus buf count = (-EINVAL, bus) ↔ (Y < 2000 ∨ Y > 2099)) ∧
    (¬ (Y < 2000 ∨ Y > 2099) →
      (mini_time_store bus buf count).2.log
        = bus.log ++ [Transfer.write_i2c_block_data REG_SECONDS
            (mini_time_store_encode Y M D h m s)]) := by
  refine ⟨⟨fun hrej => ?_, fun hout => ?_⟩, mini_time_store_log bus buf count Y M D h m s hscan⟩
  · by_contra hwin
    have hlog := mini_time_store_log bus buf count Y M D h m s hscan hwin
    rw [hrej] at hlog
    have hlen := congrArg List.length hlog
    simp at hlen
  · rw [mini_time_store_of_scan bus buf count Y M D h m s hscan, if_pos hout]

/-- Witness of C4: "1999-01-01 00:00:00" scans into six integers and is rejected. -/
theorem C4_year_window_witness :
    mini_time_store_scan "1999-01-01 00:00:00".toList = [1999, 1, 1, 0, 0, 0] ∧
    mini_time_store idle_bus "1999-01-01 00:00:00".toList 19 = (-EINVAL, idle_bus) :=
  ⟨by decide,
    (C4_year_window idle_bus "1999-01-01 00:00:00".toList 19 1999 1 1 0 0 0 (by decide)).1.mpr
      (Or.inl (by decide))⟩

/-- C5. Format rejection: every input on which the scan under
"%d-%d-%d %d:%d:%d" does not store six integers makes `mini_time_store` return
-EINVAL (with the bus untouched). -/
theorem C5_format_rejection (bus : Bus) (buf : List Char) (count : Nat)
    (hscan : (mini_time_store_scan buf).length ≠ 6) :
    mini_time_store bus buf count = (-EINVAL, bus) :=
  mini_time_store_of_no_scan bus buf count hscan

/-- Witness of C5: "2024/03/15 08:30:45" stores one integer only and is rejected. -/
theorem C5_format_rejection_witness :
    mini_time_store_scan "2024/03/15 08:30:45".toList = [2024] ∧
    mini_time_store idle_bus "2024/03/15 08:30:45".toList 19 = (-EINVAL, idle_bus) :=
  ⟨by decide, C5_format_rejection idle_bus "2024/03/15 08:30:45".toList 19 (by decide)⟩

/-- C6. Atomic rejection: when the input fails validation, by a scan that does
not store six integers or by a scanned year outside [2000,2099],
`mini_time_store` returns -EINVAL, issues no bus transfer and leaves every
register of the chip as it was. -/
theorem C6_atomic_rejection (bus : Bus) (buf : List Char) (count : Nat)
    (hrej : (mini_time_store_scan buf).length ≠ 6 ∨
      ∃ Y M D h m s, mini_time_store_scan buf = [Y, M, D, h, m, s] ∧ (Y < 2000 ∨ Y > 2099)) :
    (mini_time_store bus buf count).1 = -EINVAL ∧
    (mini_time_store bus buf count).2.log = bus.log ∧
    (mini_time_store bus buf count).2.regs = bus.regs := by
  have h : mini_time_store bus buf count = (-EINVAL, bus) := by
    rcases hrej with hlen | ⟨Y, M, D, h, m, s, hscan, hout⟩
    · exact mini_time_store_of_no_scan bus buf count hlen
    · rw [mini_time_store_of_scan bus buf count Y M D h m s hscan, if_pos hout]
  rw [h]
  exact ⟨rfl, rfl, rfl⟩

/-- Witness of C6: "2100-12-31 23:59:59" on a bus that already carries a time. -/
theorem C6_atomic_rejection_witness :
    (mini_time_store ⟨fun _ => 0x59, [], [Transfer.read_i2c_block_data 3 7]⟩
      "2100-12-31 23:59:59".toList 19).1 = -EINVAL ∧
    (mini_time_store ⟨fun _ => 0x59, [], [Transfer.read_i2c_block_data 3 7]⟩
      "2100-12-31 23:59:59".toList 19).2.log = [Transfer.read_i2c_block_data 3 7] ∧
    (mini_time_store ⟨fun _ => 0x59, [], [Transfer.read_i2c_block_data 3 7]⟩
      "2100-12-31 23:59:59".toList 19).2.regs = fun _ => 0x59 :=
  C6_atomic_rejection ⟨fun _ => 0x59, [], [Transfer.read_i2c_block_data 3 7]⟩
    "2100-12-31 23:59:59".toList 19
    (Or.inr ⟨2100, 12, 31, 23, 59, 59, by decide, Or.inr (by decide)⟩)


/-- Bytes that agree on the bits below `n` are equal under the mask `2^n - 1`. -/
theorem and_mask_eq_of_agree_below (n : Nat) (a b : u8) (hab : agree_below n a b) :
    a.val &&& (2 ^ n - 1) = b.val &&& (2 ^ n - 1) := by
  apply Nat.eq_of_testBit_eq
  intro i
  rw [Nat.testBit_and, Nat.testBit_and, Nat.testBit_two_pow_sub_one]
  by_cases hi : i < n
  · rw [hab i hi]
  · simp [hi]

/-- C7. Masking tolerance of the decoder: two blocks that differ at most in
bit 7 of the seconds byte, bit 7 of the minutes byte, bits 6-7 of the hours
and days bytes, bits 3-7 of the weekday byte and bits 5-7 of the months byte
(same years byte) give the same output text. -/
theorem C7_masking_tolerance (a0 a1 a2 a3 a4 a5 a6 b0 b1 b2 b3 b4 b5 : u8)
    (h0 : agree_below 7 a0 b0) (h1 : agree_below 7 a1 b1) (h2 : agree_below 6 a2 b2)
    (h3 : agree_below 6 a3 b3) (h4 : agree_below 3 a4 b4) (h5 : agree_below 5 a5 b5) :
    mini_time_show_text [b0, b1, b2, b3, b4, b5, a6]
      = mini_time_show_text [a0, a1, a2, a3, a4, a5, a6] := by
  have e0 : b0.val &&& 0x7F = a0.val &&& 0x7F := (and_mask_eq_of_agree_below 7 a0 b0 h0).symm
  have e1 : b1.val &&& 0x7F = a1.val &&& 0x7F := (and_mask_eq_of_agree_below 7 a1 b1 h1).symm
  have e2 : b2.val &&& 0x3F = a2.val &&& 0x3F := (and_mask_eq_of_agree_below 6 a2 b2 h2).symm
  have e3 : b3.val &&& 0x3F = a3.val &&& 0x3F := (and_mask_eq_of_agree_below 6 a3 b3 h3).symm
  have e4 : b4.val &&& 0x07 = a4.val &&& 0x07 := (and_mask_eq_of_agree_below 3 a4 b4 h4).symm
  have e5 : b5.val &&& 0x1F = a5.val &&& 0x1F := (and_mask_eq_of_agree_below 5 a5 b5 h5).symm
  simp only [mini_time_show_text, mini_time_show_decode, List.getD_cons_zero,
    List.getD_cons_succ, e0, e1, e2, e3, e4, e5]

/-- Witness of C7: every reserved bit of the block of 2024-03-15 08:30:45 set. -/
theorem C7_masking_tolerance_witness :
    mini_time_show_text [0xC5, 0xB0, 0xC8, 0xD5, 0xF8, 0xE3, 0x24]
      = mini_time_show_text [0x45, 0x30, 0x08, 0x15, 0x00, 0x03, 0x24] :=
  C7_masking_tolerance 0x45 0x30 0x08 0x15 0x00 0x03 0x24 0xC5 0xB0 0xC8 0xD5 0xF8 0xE3
    (by unfold agree_below; decide) (by unfold agree_below; decide)
    (by unfold agree_below; decide) (by unfold agree_below; decide)
    (by unfold agree_below; decide) (by unfold agree_below; decide)

/-- C8 as stated fails: on "2024-13-40 25:70:80" the block written does not
hold the packing of second 80 and day 40 (0x80 and 0x40), and decoding it does
not give second 80 and day 40. -/
theorem C8_lenient_edge_counterexample :
    mini_time_store_scan "2024-13-40 25:70:80".toList = [2024, 13, 40, 25, 70, 80] ∧
    ¬ (mini_time_store_encode 2024 13 40 25 70 80
        = [dec2bcd 80, dec2bcd 70, dec2bcd 25, dec2bcd 40, 0, dec2bcd 13, dec2bcd 24]) ∧
    ¬ ((mini_time_show_decode (mini_time_store_encode 2024 13 40 25 70 80)).mon = 13 ∧
       (mini_time_show_decode (mini_time_store_encode 2024 13 40 25 70 80)).day = 40 ∧
       (mini_time_show_decode (mini_time_store_encode 2024 13 40 25 70 80)).hour = 25 ∧
       (mini_time_show_decode (mini_time_store_encode 2024 13 40 25 70 80)).min = 70 ∧
       (mini_time_show_decode (mini_time_store_encode 2024 13 40 25 70 80)).sec = 80) := by
  decide

/-- C8, amended. On "2024-13-40 25:70:80", with a bus that lets the write
through, `mini_time_store` returns `count` and writes
[0x00, 0x70, 0x25, 0x00, 0x00, 0x13, 0x24] from register 0x03: month 13, hour
25 and minute 70 are held as packed, the write masks reduce the packed second
80 and day 40 to 0x00. Decoding that block gives month 13, day 0, hour 25,
minute 70, second 0, and the text "2024-13-00 25:70:00 (wk=0)". -/
theorem C8_lenient_edge_amended (regs : Nat → u8) (log : List Transfer) (count : Nat) :
    mini_time_store ⟨regs, [], log⟩ "2024-13-40 25:70:80".toList count
      = ((count : Int),
          ⟨write_regs regs 3 [0x00, 0x70, 0x25, 0x00, 0x00, 0x13, 0x24], [],
            log ++ [Transfer.write_i2c_block_data REG_SECONDS
              [0x00, 0x70, 0x25, 0x00, 0x00, 0x13, 0x24]]⟩) ∧
    [dec2bcd 13, dec2bcd 25, dec2bcd 70] = [0x13, 0x25, 0x70] ∧
    [dec2bcd 80, dec2bcd 40] = [0x80, 0x40] ∧
    mini_time_show_decode [0x00, 0x70, 0x25, 0x00, 0x00, 0x13, 0x24]
      = { sec := 0, min := 70, hour := 25, day := 0, wk := 0, mon := 13, yr := 24 } ∧
    mini_time_show_text [0x00, 0x70, 0x25, 0x00, 0x00, 0x13, 0x24]
      = "2024-13-00 25:70:00 (wk=0)\n".toList := by
  have hscan : mini_time_store_scan "2024-13-40 25:70:80".toList
      = [2024, 13, 40, 25, 70, 80] := by decide
  have henc : mini_time_store_encode 2024 13 40 25 70 80
      = [0x00, 0x70, 0x25, 0x00, 0x00, 0x13, 0x24] := by decide
  refine ⟨?_, by decide, by decide, by decide, by decide⟩
  rw [mini_time_store_of_scan _ _ count 2024 13 40 25 70 80 hscan, henc]
  rfl

/-- C9. No range rejection past the year: when the scan stores six integers
with the year in [2000,2099], whatever the month, day, hour, minute and second,
and the bus lets the write through, `mini_time_store` returns `count`. -/
theorem C9_no_range_rejection (bus : Bus) (buf : List Char) (count : Nat)
    (Y M D h m s : Int) (hscan : mini_time_store_scan buf = [Y, M, D, h, m, s])
    (hlo : 2000 ≤ Y) (hhi : Y ≤ 2099) (hbus : 0 ≤ bus.status.headD 0) :
    (mini_time_store bus buf count).1 = (count : Int) := by
  have hwin : ¬ (Y < 2000 ∨ Y > 2099) := by omega
  have hok : ¬ (i2c_smbus_write_i2c_block_data bus REG_SECONDS
      (mini_time_store_encode Y M D h m s)).1 < 0 := by
    simp only [i2c_smbus_write_i2c_block_data, Bus.issue]
    split_ifs with hneg
    · omega
    · simp
  rw [mini_time_store_of_scan bus buf count Y M D h m s hscan, if_neg hwin, if_neg hok]

/-- Witness of C9: a negative month and fields above 99 are written. -/
theorem C9_no_range_rejection_witness :
    mini_time_store_scan "2099--7-400 250:-1:1000".toList = [2099, -7, 400, 250, -1, 1000] ∧
    (mini_time_store idle_bus "2099--7-400 250:-1:1000".toList 23).1 = 23 :=
  ⟨by decide,
    C9_no_range_rejection idle_bus "2099--7-400 250:-1:1000".toList 23 2099 (-7) 400 250 (-1) 1000
      (by decide) (by decide) (by decide) (by decide)⟩


/-! ## Lemmas on the scan -/

/-- The items of the format of `mini_time_store`. -/
theorem directives_time_format :
    directives "%d-%d-%d %d:%d:%d".toList
      = [Directive.d, Directive.lit '-', Directive.d, Directive.lit '-', Directive.d,
          Directive.space, Directive.d, Directive.lit ':', Directive.d, Directive.lit ':',
          Directive.d] := by
  decide

/-- White space skipped is white space, and the input is it followed by the rest. -/
theorem skip_spaces_split (str : List Char) :
    ∃ w, is_white_space w ∧ str = w ++ skip_spaces str := by
  refine ⟨str.takeWhile isspace, ?_, ?_⟩
  · intro c hc
    exact List.mem_takeWhile_imp hc
  · exact (List.takeWhile_append_dropWhile isspace str).symm

/-- The digit loop reads a run of digits off the front of its input. -/
theorem parse_integer_split (s : List Char) :
    ∀ res, ∃ ds, (∀ c ∈ ds, isdigit c = true) ∧ s = ds ++ (parse_integer s res).2 := by
  induction s with
  | nil => intro res; exact ⟨[], by simp, by simp [parse_integer]⟩
  | cons c s ih =>
    intro res
    by_cases hc : isdigit c = true
    · obtain ⟨ds, hds, hs⟩ := ih ((res * 10 + (c.toNat - 48)) % 2 ^ 64)
      refine ⟨c :: ds, ?_, ?_⟩
      · intro x hx
        rcases List.mem_cons.mp hx with rfl | hx
        · exact hc
        · exact hds x hx
      · simp only [parse_integer, hc, if_true, List.cons_append]
        exact congrArg (List.cons c) hs
    · exact ⟨[], by simp, by simp [parse_integer, hc]⟩

/-- The digit loop stops in front of a character that is no digit, or at the end. -/
theorem parse_integer_rest (s : List Char) :
    ∀ res c t, (parse_integer s res).2 = c :: t → isdigit c = false := by
  induction s with
  | nil => intro res c t h; simp [parse_integer] at h
  | cons x s ih =>
    intro res c t h
    by_cases hx : isdigit x = true
    · simp only [parse_integer, hx, if_true] at h
      exact ih _ c t h
    · simp only [parse_integer, hx] at h
      simp only [Bool.false_eq_true, if_false, List.cons.injEq] at h
      rw [← h.1]
      simpa using hx

/-- The digit loop started on a digit reads at least that digit. -/
theorem parse_integer_split_digit (c : Char) (s : List Char) (hc : isdigit c = true) (res : Nat) :
    ∃ ds, ds ≠ [] ∧ (∀ x ∈ ds, isdigit x = true) ∧
      c :: s = ds ++ (parse_integer (c :: s) res).2 := by
  obtain ⟨ds, hds, hs⟩ := parse_integer_split s ((res * 10 + (c.toNat - 48)) % 2 ^ 64)
  refine ⟨c :: ds, by simp, ?_, ?_⟩
  · intro x hx
    rcases List.mem_cons.mp hx with rfl | hx
    · exact hc
    · exact hds x hx
  · simp only [parse_integer, hc, if_true, List.cons_append]
    exact congrArg (List.cons c) hs

/-- A successful `%d` reads white space and an integer as text off the front of
the input and goes on with the rest of the format on what follows. -/
theorem vsscanf_d_split (fmt : List Directive) (str : List Char) (v : Int) (vs : List Int)
    (h : vsscanf (Directive.d :: fmt) str = v :: vs) :
    ∃ w n rest, is_white_space w ∧ is_integer_text n ∧ str = w ++ n ++ rest ∧
      (∀ c t, rest = c :: t → isdigit c = false) ∧ vsscanf fmt rest = vs := by
  obtain ⟨w, hw, hstr⟩ := skip_spaces_split str
  simp only [vsscanf] at h
  split_ifs at h with hnil
  generalize hs1 : skip_spaces str = str1 at h hstr
  cases str1 with
  | nil => simp at h
  | cons x rest =>
    simp only at h
    by_cases hx : x = '-'
    · subst hx
      simp only [if_true] at h
      cases rest with
      | nil => simp at h
      | cons dg rest2 =>
        simp only [List.head?_cons] at h
        split_ifs at h with hdg
        simp only [simple_strntoll, if_true, simple_strntoull, List.cons.injEq] at h
        obtain ⟨ds, hne, hds, hsplit⟩ := parse_integer_split_digit dg rest2 hdg 0
        have hrest := parse_integer_rest (dg :: rest2) 0
        generalize (parse_integer (dg :: rest2) 0).2 = r at h hsplit hrest
        refine ⟨w, '-' :: ds, r, hw, ⟨ds, hne, hds, Or.inr rfl⟩, ?_, hrest, h.2⟩
        rw [hstr, hsplit]
        simp
    · simp only [hx, if_false] at h
      split_ifs at h with hdg
      simp only [simple_strntoll, hx, if_false, simple_strntoull, List.cons.injEq] at h
      obtain ⟨ds, hne, hds, hsplit⟩ := parse_integer_split_digit x rest hdg 0
      have hrest := parse_integer_rest (x :: rest) 0
      generalize (parse_integer (x :: rest) 0).2 = r at h hsplit hrest
      refine ⟨w, ds, r, hw, ⟨ds, hne, hds, Or.inl rfl⟩, ?_, hrest, h.2⟩
      rw [hstr, hsplit]
      simp

/-- A matched ordinary character is the next character of the input. -/
theorem vsscanf_lit_split (c : Char) (fmt : List Directive) (str : List Char) (v : Int)
    (vs : List Int) (h : vsscanf (Directive.lit c :: fmt) str = v :: vs) :
    ∃ rest, str = c :: rest ∧ vsscanf fmt rest = v :: vs := by
  cases str with
  | nil => simp [vsscanf] at h
  | cons x rest =>
    simp only [vsscanf] at h
    split_ifs at h with hx
    exact ⟨rest, by rw [hx], h⟩


/-- White space in the format skips the white space at the front of the input. -/
theorem vsscanf_space (fmt : List Directive) (str : List Char) :
    vsscanf (Directive.space :: fmt) str = vsscanf fmt (skip_spaces str) := by
  simp only [vsscanf]

/-- Six integers stored by the scan of `mini_time_store` come from an input of
the scan layout. -/
theorem scan_layout_of_scan (buf : List Char) (Y M D h m s : Int)
    (hscan : mini_time_store_scan buf = [Y, M, D, h, m, s]) : scan_layout buf := by
  unfold mini_time_store_scan sscanf at hscan
  rw [directives_time_format] at hscan
  obtain ⟨w1, n1, r1, hw1, hn1, e1, hr1, hscan⟩ := vsscanf_d_split _ _ _ _ hscan
  obtain ⟨r1b, e1b, hscan⟩ := vsscanf_lit_split _ _ _ _ _ hscan
  obtain ⟨w2, n2, r2, hw2, hn2, e2, hr2, hscan⟩ := vsscanf_d_split _ _ _ _ hscan
  obtain ⟨r2b, e2b, hscan⟩ := vsscanf_lit_split _ _ _ _ _ hscan
  obtain ⟨w3, n3, r3, hw3, hn3, e3, hr3, hscan⟩ := vsscanf_d_split _ _ _ _ hscan
  rw [vsscanf_space] at hscan
  obtain ⟨w4a, hw4a, e4a⟩ := skip_spaces_split r3
  obtain ⟨w4b, n4, r4, hw4b, hn4, e4, -, hscan⟩ := vsscanf_d_split _ _ _ _ hscan
  obtain ⟨r4b, e4b, hscan⟩ := vsscanf_lit_split _ _ _ _ _ hscan
  obtain ⟨w5, n5, r5, hw5, hn5, e5, hr5, hscan⟩ := vsscanf_d_split _ _ _ _ hscan
  obtain ⟨r5b, e5b, hscan⟩ := vsscanf_lit_split _ _ _ _ _ hscan
  obtain ⟨w6, n6, r6, hw6, hn6, e6, -, -⟩ := vsscanf_d_split _ _ _ _ hscan
  have hw4 : is_white_space (w4a ++ w4b) := by
    intro c hc
    rcases List.mem_append.mp hc with hc | hc
    · exact hw4a c hc
    · exact hw4b c hc
  have hsep : w4a ++ w4b ≠ [] ∨ ∃ t, n4 = '-' :: t := by
    by_cases hw : w4a ++ w4b = []
    · right
      obtain ⟨ha, hb⟩ := List.append_eq_nil.mp hw
      obtain ⟨ds, hne, hds, hn | hn⟩ := hn4
      · exfalso
        cases ds with
        | nil => exact hne rfl
        | cons c t =>
          have hc : isdigit c = true := hds c (List.mem_cons_self c t)
          have h3 : r3 = c :: (t ++ r4) := by
            rw [e4a, e4, ha, hb, hn]
            simp
          rw [hr3 c _ h3] at hc
          exact Bool.false_ne_true hc
      · exact ⟨ds, hn⟩
    · exact Or.inl hw
  have hbuf : buf = c_str buf ++ buf.dropWhile (fun c => c.toNat ≠ 0) :=
    (List.takeWhile_append_dropWhile _ buf).symm
  generalize buf.dropWhile (fun c => c.toNat ≠ 0) = tl at hbuf
  rw [e1, e1b, e2, e2b, e3, e4a, e4, e4b, e5, e5b, e6] at hbuf
  refine ⟨w1, n1, w2, n2, w3, n3, w4a ++ w4b, n4, w5, n5, w6, n6, r6 ++ tl,
    ⟨hw1, hw2, hw3, hw4, hw5, hw6⟩, ⟨hn1, hn2, hn3, hn4, hn5, hn6⟩, hsep, ?_⟩
  refine hbuf.trans ?_
  simp only [List.append_assoc, List.cons_append]


/-- An input that `mini_time_store` does not reject made the scan store six
integers with the year in the window. -/
theorem scan_of_not_rejected (bus : Bus) (buf : List Char) (count : Nat)
    (hacc : mini_time_store bus buf count ≠ (-EINVAL, bus)) :
    ∃ Y M D h m s, mini_time_store_scan buf = [Y, M, D, h, m, s] ∧ ¬ (Y < 2000 ∨ Y > 2099) := by
  by_cases hlen : (mini_time_store_scan buf).length = 6
  · match hL : mini_time_store_scan buf with
    | [Y, M, D, h, m, s] =>
      refine ⟨Y, M, D, h, m, s, rfl, fun hout => hacc ?_⟩
      rw [mini_time_store_of_scan bus buf count Y M D h m s hL, if_pos hout]
    | [] => rw [hL] at hlen; simp at hlen
    | [_] => rw [hL] at hlen; simp at hlen
    | [_, _] => rw [hL] at hlen; simp at hlen
    | [_, _, _] => rw [hL] at hlen; simp at hlen
    | [_, _, _, _] => rw [hL] at hlen; simp at hlen
    | [_, _, _, _, _] => rw [hL] at hlen; simp at hlen
    | _ :: _ :: _ :: _ :: _ :: _ :: _ :: _ => rw [hL] at hlen; simp at hlen
  · exact absurd (mini_time_store_of_no_scan bus buf count hlen) hacc

/-! ## The scan layout is exact -/

/-- A digit is no white space. -/
theorem isspace_of_isdigit (c : Char) (h : isdigit c = true) : isspace c = false := by
  simp only [isdigit, Bool.and_eq_true, decide_eq_true_eq] at h
  simp only [isspace, Bool.or_eq_false_iff, Bool.and_eq_false_imp, decide_eq_false_iff_not,
    decide_eq_true_eq]
  omega

/-- White space is no digit. -/
theorem isdigit_of_isspace (c : Char) (h : isspace c = true) : isdigit c = false := by
  cases hd : isdigit c with
  | false => rfl
  | true => rw [isspace_of_isdigit c hd] at h; exact absurd h Bool.false_ne_true

/-- An integer as text begins with a character that is no white space. -/
theorem integer_text_head (n : List Char) (hn : is_integer_text n) :
    ∃ c t, n = c :: t ∧ isspace c = false := by
  obtain ⟨ds, hne, hds, hn | hn⟩ := hn
  · cases ds with
    | nil => exact absurd rfl hne
    | cons c t => exact ⟨c, t, hn, isspace_of_isdigit c (hds c (List.mem_cons_self c t))⟩
  · exact ⟨'-', ds, hn, by decide⟩

/-- Skipping white space removes a white run in front of other text. -/
theorem skip_spaces_append (w t : List Char) (hw : is_white_space w)
    (ht : ∀ c r, t = c :: r → isspace c = false) : skip_spaces (w ++ t) = t := by
  induction w with
  | nil =>
    cases t with
    | nil => rfl
    | cons c r => simp [skip_spaces, List.dropWhile, ht c r rfl]
  | cons x w ih =>
    have hx : isspace x = true := hw x (List.mem_cons_self x w)
    have hw2 : is_white_space w := fun c hc => hw c (List.mem_cons_of_mem x hc)
    have := ih hw2
    simp only [skip_spaces] at this
    simp [skip_spaces, List.dropWhile, hx, this]

/-- The digit loop reads a run of digits up to a character that is no digit. -/
theorem parse_integer_append (ds rest : List Char) (hds : ∀ c ∈ ds, isdigit c = true)
    (hrest : ∀ c t, rest = c :: t → isdigit c = false) :
    ∀ res, (parse_integer (ds ++ rest) res).2 = rest := by
  induction ds with
  | nil =>
    intro res
    cases rest with
    | nil => rfl
    | cons c t => simp [parse_integer, hrest c t rfl]
  | cons x ds ih =>
    intro res
    have hx : isdigit x = true := hds x (List.mem_cons_self x ds)
    simp only [List.cons_append, parse_integer, hx, if_true]
    exact ih (fun c hc => hds c (List.mem_cons_of_mem x hc)) _

/-- On white space followed by an integer as text, `%d` stores a value and the
scan goes on behind the digits it read; that is right behind the integer when
the text after it does not begin with a digit. -/
theorem vsscanf_d_run (fmt : List Directive) (w n rest : List Char) (hw : is_white_space w)
    (hn : is_integer_text n) :
    ∃ v r, vsscanf (Directive.d :: fmt) (w ++ n ++ rest) = v :: vsscanf fmt r ∧
      ((∀ c t, rest = c :: t → isdigit c = false) → r = rest) := by
  obtain ⟨c0, t0, hn0, hc0⟩ := integer_text_head n hn
  have hne : w ++ n ++ rest ≠ [] := by simp [hn0]
  have hskip : skip_spaces (w ++ n ++ rest) = n ++ rest := by
    rw [List.append_assoc]
    refine skip_spaces_append w (n ++ rest) hw ?_
    intro c r hcr
    rw [hn0] at hcr
    simp only [List.cons_append, List.cons.injEq] at hcr
    rw [← hcr.1]
    exact hc0
  obtain ⟨ds, hdne, hds, hn | hn⟩ := hn
  · cases ds with
    | nil => exact absurd rfl hdne
    | cons c t =>
      have hc : isdigit c = true := hds c (List.mem_cons_self c t)
      have hcm : c ≠ '-' := by
        intro h
        rw [h] at hc
        exact absurd hc (by decide)
      refine ⟨to_int (simple_strntoll (n ++ rest)).1, (simple_strntoll (n ++ rest)).2, ?_, ?_⟩
      · simp only [vsscanf, hne, if_false, hskip]
        rw [hn]
        simp only [List.cons_append, hcm, if_false, hc, if_true]
      · intro hrest
        rw [hn]
        simp only [List.cons_append, simple_strntoll, hcm, if_false, simple_strntoull]
        exact parse_integer_append (c :: t) rest hds hrest 0
  · cases ds with
    | nil => exact absurd rfl hdne
    | cons c t =>
      have hc : isdigit c = true := hds c (List.mem_cons_self c t)
      refine ⟨to_int (simple_strntoll (n ++ rest)).1, (simple_strntoll (n ++ rest)).2, ?_, ?_⟩
      · simp only [vsscanf, hne, if_false, hskip]
        rw [hn]
        simp only [List.cons_append, if_true, List.head?_cons, hc]
      · intro hrest
        rw [hn]
        simp only [List.cons_append, simple_strntoll, if_true, simple_strntoull]
        exact parse_integer_append (c :: t) rest hds hrest 0

/-- On white space, an integer as text and the character `c` (no digit) the
items `%d` and `c` of the format are passed and one value is stored. -/
theorem vsscanf_d_lit_run (fmt : List Directive) (c : Char) (hc : isdigit c = false)
    (w n rest : List Char) (hw : is_white_space w) (hn : is_integer_text n) :
    ∃ v, vsscanf (Directive.d :: Directive.lit c :: fmt) (w ++ n ++ c :: rest)
      = v :: vsscanf fmt rest := by
  obtain ⟨v, r, hv, hr⟩ := vsscanf_d_run (Directive.lit c :: fmt) w n (c :: rest) hw hn
  have hr2 : r = c :: rest := hr (fun x t hx => by
    simp only [List.cons.injEq] at hx
    rw [← hx.1]
    exact hc)
  refine ⟨v, ?_⟩
  rw [hv, hr2]
  simp only [vsscanf, if_true]

/-- The characters of an integer as text are digits or `-`. -/
theorem integer_text_chars (n : List Char) (hn : is_integer_text n) :
    ∀ c ∈ n, isdigit c = true ∨ c = '-' := by
  obtain ⟨ds, -, hds, hn | hn⟩ := hn
  · intro c hc
    rw [hn] at hc
    exact Or.inl (hds c hc)
  · intro c hc
    rw [hn] at hc
    rcases List.mem_cons.mp hc with h | h
    · exact Or.inr h
    · exact Or.inl (hds c h)

/-- A C string goes on over every character that is not NUL. -/
theorem c_str_cons (x : Char) (b : List Char) (hx : x.toNat ≠ 0) :
    c_str (x :: b) = x :: c_str b := by
  simp only [c_str]
  rw [List.takeWhile_cons]
  simp [hx]

/-- A C string goes on over text without NUL. -/
theorem c_str_append (a b : List Char) (ha : ∀ c ∈ a, c.toNat ≠ 0) :
    c_str (a ++ b) = a ++ c_str b := by
  induction a with
  | nil => rfl
  | cons x a ih =>
    rw [List.cons_append, c_str_cons x (a ++ b) (ha x (List.mem_cons_self x a)),
      ih (fun c hc => ha c (List.mem_cons_of_mem x hc)), List.cons_append]

/-- A C string goes on over white space and an integer as text. -/
theorem c_str_run (w n rest : List Char) (hw : is_white_space w) (hn : is_integer_text n) :
    c_str (w ++ n ++ rest) = w ++ n ++ c_str rest := by
  refine c_str_append (w ++ n) rest ?_
  intro c hc
  rcases List.mem_append.mp hc with h | h
  · have hs := hw c h
    simp only [isspace, Bool.or_eq_true, Bool.and_eq_true, decide_eq_true_eq] at hs
    omega
  · rcases integer_text_chars n hn c h with hd | hm
    · simp only [isdigit, Bool.and_eq_true, decide_eq_true_eq] at hd
      omega
    · rw [hm]; decide

/-- Every input of the scan layout makes the scan of `mini_time_store` store
six integers. -/
theorem scan_of_scan_layout (buf : List Char) (hlay : scan_layout buf) :
    (mini_time_store_scan buf).length = 6 := by
  obtain ⟨w1, n1, w2, n2, w3, n3, w4, n4, w5, n5, w6, n6, rest,
    ⟨hw1, hw2, hw3, hw4, hw5, hw6⟩, ⟨hn1, hn2, hn3, hn4, hn5, hn6⟩, hsep, hbuf⟩ := hlay
  have hstr : c_str buf = w1 ++ n1 ++ '-' :: (w2 ++ n2 ++ '-' :: (w3 ++ n3 ++ (w4 ++ n4 ++
      ':' :: (w5 ++ n5 ++ ':' :: (w6 ++ n6 ++ c_str rest))))) := by
    rw [hbuf, c_str_run w1 n1 _ hw1 hn1, c_str_cons '-' _ (by decide),
      c_str_run w2 n2 _ hw2 hn2, c_str_cons '-' _ (by decide), c_str_run w3 n3 _ hw3 hn3,
      c_str_run w4 n4 _ hw4 hn4, c_str_cons ':' _ (by decide), c_str_run w5 n5 _ hw5 hn5,
      c_str_cons ':' _ (by decide), c_str_run w6 n6 _ hw6 hn6]
  have hminus : isdigit '-' = false := by decide
  have hcolon : isdigit ':' = false := by decide
  unfold mini_time_store_scan sscanf
  rw [directives_time_format, hstr]
  obtain ⟨v1, h1⟩ := vsscanf_d_lit_run
    [Directive.d, Directive.lit '-', Directive.d, Directive.space, Directive.d,
      Directive.lit ':', Directive.d, Directive.lit ':', Directive.d] '-' hminus w1 n1
    (w2 ++ n2 ++ '-' :: (w3 ++ n3 ++ (w4 ++ n4 ++
      ':' :: (w5 ++ n5 ++ ':' :: (w6 ++ n6 ++ c_str rest))))) hw1 hn1
  obtain ⟨v2, h2⟩ := vsscanf_d_lit_run
    [Directive.d, Directive.space, Directive.d,
      Directive.lit ':', Directive.d, Directive.lit ':', Directive.d] '-' hminus w2 n2
    (w3 ++ n3 ++ (w4 ++ n4 ++
      ':' :: (w5 ++ n5 ++ ':' :: (w6 ++ n6 ++ c_str rest)))) hw2 hn2
  obtain ⟨v3, r3, h3, hr3⟩ := vsscanf_d_run
    [Directive.space, Directive.d,
      Directive.lit ':', Directive.d, Directive.lit ':', Directive.d] w3 n3
    (w4 ++ n4 ++ ':' :: (w5 ++ n5 ++ ':' :: (w6 ++ n6 ++ c_str rest))) hw3 hn3
  obtain ⟨c4, t4, hn40, hc4⟩ := integer_text_head n4 hn4
  have hr3b : r3 = w4 ++ n4 ++ ':' :: (w5 ++ n5 ++ ':' :: (w6 ++ n6 ++ c_str rest)) := by
    apply hr3
    intro c t hct
    rcases hsep with hne | ⟨t, ht⟩
    · cases w4 with
      | nil => exact absurd rfl hne
      | cons x w4t =>
        simp only [List.cons_append, List.cons.injEq] at hct
        rw [← hct.1]
        exact isdigit_of_isspace x (hw4 x (List.mem_cons_self x w4t))
    · cases w4 with
      | nil =>
        rw [ht] at hct
        simp only [List.nil_append, List.cons_append, List.cons.injEq] at hct
        rw [← hct.1]
        exact hminus
      | cons x w4t =>
        simp only [List.cons_append, List.cons.injEq] at hct
        rw [← hct.1]
        exact isdigit_of_isspace x (hw4 x (List.mem_cons_self x w4t))
  have hskip4 : skip_spaces r3
      = [] ++ n4 ++ ':' :: (w5 ++ n5 ++ ':' :: (w6 ++ n6 ++ c_str rest)) := by
    rw [hr3b, List.append_assoc]
    refine skip_spaces_append w4 _ hw4 ?_
    intro c r hcr
    rw [hn40] at hcr
    simp only [List.cons_append, List.cons.injEq] at hcr
    rw [← hcr.1]
    exact hc4
  obtain ⟨v4, h4⟩ := vsscanf_d_lit_run
    [Directive.d, Directive.lit ':', Directive.d] ':' hcolon [] n4
    (w5 ++ n5 ++ ':' :: (w6 ++ n6 ++ c_str rest)) (fun c hc => absurd hc (List.not_mem_nil c)) hn4
  obtain ⟨v5, h5⟩ := vsscanf_d_lit_run
    [Directive.d] ':' hcolon w5 n5 (w6 ++ n6 ++ c_str rest) hw5 hn5
  obtain ⟨v6, r6, h6, -⟩ := vsscanf_d_run [] w6 n6 (c_str rest) hw6 hn6
  rw [h1, h2, h3, vsscanf_space, hskip4, h4, h5, h6]
  simp [vsscanf]

/-- The scan stores every integer as a C `int`: a digit string beyond the range
of `int` is reduced modulo `2^32` before `mini_time_store` looks at it. -/
theorem scan_reduces_modulo :
    mini_time_store_scan "4294969320-01-01 00:00:00".toList = [2024, 1, 1, 0, 0, 0] := by
  decide

/-! ## Claims (continued) -/

/-- C10 as stated fails: inputs with a trailing newline, with leading and
extra white space, with no white space between date and time, or with
trailing text are not of the layout "YYYY-MM-DD hh:mm:ss", yet
`mini_time_store` takes each of them, returns `count` and writes a block. -/
theorem C10_strict_layout_counterexample :
    (strict_layout "2024-03-15 08:30:45\n".toList = false ∧
      (mini_time_store idle_bus "2024-03-15 08:30:45\n".toList 20).1 = 20 ∧
      (mini_time_store idle_bus "2024-03-15 08:30:45\n".toList 20).2.log
        = [Transfer.write_i2c_block_data REG_SECONDS
            [0x45, 0x30, 0x08, 0x15, 0x00, 0x03, 0x24]]) ∧
    (strict_layout " 2024- 03-15 \t08:30:45".toList = false ∧
      (mini_time_store idle_bus " 2024- 03-15 \t08:30:45".toList 22).1 = 22) ∧
    (strict_layout "2024-03-15-08:30:45".toList = false ∧
      mini_time_store_scan "2024-03-15-08:30:45".toList = [2024, 3, 15, -8, 30, 45] ∧
      (mini_time_store idle_bus "2024-03-15-08:30:45".toList 19).1 = 19) ∧
    (strict_layout "2024-03-15 08:30:45 and more".toList = false ∧
      (mini_time_store idle_bus "2024-03-15 08:30:45 and more".toList 28).1 = 28) := by
  decide

/-- C10, amended. `mini_time_store` takes an input only if it is of the scan
layout: six integers as text (an optional `-` and at least one digit), each
after any amount of white space including none, with `-` right after the first
and the second, `:` right after the fourth and the fifth, and anything at all
after the sixth; the fourth integer begins with `-` where no white space sets
it off from the third. -/
theorem C10_scan_layout (bus : Bus) (buf : List Char) (count : Nat)
    (hacc : mini_time_store bus buf count ≠ (-EINVAL, bus)) : scan_layout buf := by
  obtain ⟨Y, M, D, h, m, s, hscan, -⟩ := scan_of_not_rejected bus buf count hacc
  exact scan_layout_of_scan buf Y M D h m s hscan

/-- Witness of C10 amended: an input with leading white space, white space
after a separator, none between date and time, and a trailing newline. -/
theorem C10_scan_layout_witness :
    mini_time_store idle_bus " 2024- 03-15-08:30:45\n".toList 22 ≠ (-EINVAL, idle_bus) ∧
    scan_layout " 2024- 03-15-08:30:45\n".toList :=
  ⟨fun h => absurd (congrArg Prod.fst h) (by decide),
    C10_scan_layout idle_bus " 2024- 03-15-08:30:45\n".toList 22
      (fun h => absurd (congrArg Prod.fst h) (by decide))⟩


/-! ## Lemmas on the text of `mini_time_show` -/

/-- The year byte decoded by `mini_time_show_decode`. -/
theorem decode_yr (b0 b1 b2 b3 b4 b5 b6 : u8) :
    (mini_time_show_decode [b0, b1, b2, b3, b4, b5, b6]).yr = bcd2dec b6 := rfl

/-- The year byte built by `mini_time_store_encode`. -/
theorem encode_year_byte (Y M D h m s : Int) :
    (mini_time_store_encode Y M D h m s).getD 6 0 = dec2bcd (Y.tmod 100) := rfl

/-- The year decoded from an encoded block. -/
theorem decode_encode_yr (Y M D h m s : Int) :
    (mini_time_show_decode (mini_time_store_encode Y M D h m s)).yr
      = bcd2dec (dec2bcd (Y.tmod 100)) := rfl

/-- The two digits stored and printed for a year of the window, and the four
digits of the year itself. -/
theorem year_digits (Y : Int) (h0 : 2000 ≤ Y) (h1 : Y ≤ 2099) :
    dec2bcd (Y.tmod 100) = dec2bcd (Y % 100) ∧
    (((dec2bcd (Y.tmod 100)).val : Nat) : Int) = 16 * ((Y % 100) / 10) + (Y % 100) % 10 ∧
    number 2 (bcd2dec (dec2bcd (Y.tmod 100))) = two_digits (Y % 100) ∧
    number 0 Y = ['2', '0'] ++ two_digits (Y % 100) := by
  interval_cases Y <;> decide

/-- The text of `mini_time_show` begins with "20" and the year as printed by
`%02d`, when that is two characters long. -/
theorem show_text_take4 (data : List u8)
    (hlen : (number 2 (mini_time_show_decode data).yr).length = 2) :
    (mini_time_show_text data).take 4 = ['2', '0'] ++ number 2 (mini_time_show_decode data).yr := by
  obtain ⟨a, b, hab⟩ := List.length_eq_two.mp hlen
  simp only [mini_time_show_text, mini_time_show_format, scnprintf, hab, PAGE_SIZE]
  simp [List.take_take]

/-! ## Claims on the written b/-- For a month from 0 to 19 masking before packing and masking after packing
give the same months byte, which lies within the mask `0x1F`. -/
theorem month_byte_of_le_19 (M : Int) (h0 : 0 ≤ M) (h1 : M ≤ 19) :
    dec2bcd ((int_bits M &&& 0x1F : Nat) : Int) = to_u8 ((dec2bcd M).val &&& 0x1F) ∧
    (dec2bcd ((int_bits M &&& 0x1F : Nat) : Int)).val &&& 0xE0 = 0 := by
  interval_cases M <;> decide

set_option maxRecDepth 100000 in
/-- The mask `0xFF` changes no byte. -/
theorem mask_FF_identity (b : u8) : to_u8 (b.val &&& 0xFF) = b := by
  revert b
  decide

lock -/

/-- C11. Per-field encoding formula, evaluated on "2024-20-15 08:30:45": the
months byte written is `dec2bcd (20 & 0x1F) = 0x20`, where the formula of the
claim, `dec2bcd 20 & 0x1F`, gives 0x00; the other five bytes are as the
formula says. -/
theorem C11_month_byte_at_20 :
    mini_time_store_scan "2024-20-15 08:30:45".toList = [2024, 20, 15, 8, 30, 45] ∧
    (mini_time_store idle_bus "2024-20-15 08:30:45".toList 19).2.log
      = [Transfer.write_i2c_block_data REG_SECONDS
          [0x45, 0x30, 0x08, 0x15, 0x00, 0x20, 0x24]] ∧
    [to_u8 ((dec2bcd 45).val &&& 0x7F), to_u8 ((dec2bcd 30).val &&& 0x7F),
      to_u8 ((dec2bcd 8).val &&& 0x3F), to_u8 ((dec2bcd 15).val &&& 0x3F),
      to_u8 ((dec2bcd 20).val &&& 0x1F), to_u8 ((dec2bcd (2024 % 100)).val &&& 0xFF)]
      = [0x45, 0x30, 0x08, 0x15, 0x00, 0x24] := by
  decide

/-- C12. Century window: when the scan stores six integers with the year Y in
[2000,2099], the block written has the BCD packing of Y mod 100 as its years
byte (tens digit in the high nibble, ones digit in the low nibble), and the
text `mini_time_show` makes from that block begins with the four digits of Y:
"20" and the two digits of Y mod 100. -/
theorem C12_century_window (bus : Bus) (buf : List Char) (count : Nat) (Y M D h m s : Int)
    (hscan : mini_time_store_scan buf = [Y, M, D, h, m, s])
    (hlo : 2000 ≤ Y) (hhi : Y ≤ 2099) :
    (mini_time_store bus buf count).2.log
      = bus.log ++ [Transfer.write_i2c_block_data REG_SECONDS
          (mini_time_store_encode Y M D h m s)] ∧
    (mini_time_store_encode Y M D h m s).getD 6 0 = dec2bcd (Y % 100) ∧
    ((((mini_time_store_encode Y M D h m s).getD 6 0).val : Nat) : Int)
      = 16 * ((Y % 100) / 10) + (Y % 100) % 10 ∧
    (mini_time_show_text (mini_time_store_encode Y M D h m s)).take 4 = number 0 Y ∧
    number 0 Y = ['2', '0'] ++ two_digits (Y % 100) := by
  obtain ⟨hb, hv, hn, hy⟩ := year_digits Y hlo hhi
  refine ⟨mini_time_store_log bus buf count Y M D h m s hscan (by omega), ?_, ?_, ?_, hy⟩
  · rw [encode_year_byte, hb]
  · rw [encode_year_byte]
    exact hv
  · rw [show_text_take4, decode_encode_yr, hn, hy]
    rw [decode_encode_yr, hn]
    rfl

/-- Witness of C12: the year 2099 is stored as 0x99 and printed as "2099". -/
theorem C12_century_window_witness :
    (mini_time_store idle_bus "2099-12-31 23:59:59".toList 19).2.log
      = idle_bus.log ++ [Transfer.write_i2c_block_data REG_SECONDS
          (mini_time_store_encode 2099 12 31 23 59 59)] ∧
    (mini_time_store_encode 2099 12 31 23 59 59).getD 6 0 = dec2bcd (2099 % 100) ∧
    ((((mini_time_store_encode 2099 12 31 23 59 59).getD 6 0).val : Nat) : Int)
      = 16 * ((2099 % 100) / 10) + (2099 % 100) % 10 ∧
    (mini_time_show_text (mini_time_store_encode 2099 12 31 23 59 59)).take 4 = number 0 2099 ∧
    number 0 2099 = ['2', '0'] ++ two_digits (2099 % 100) :=
  C12_century_window idle_bus "2099-12-31 23:59:59".toList 19 2099 12 31 23 59 59
    (by decide) (by decide) (by decide)


/-! ## Lemmas on the decoded fields of any block -/

set_option maxRecDepth 100000 in
/-- Under the mask `0x7F` a byte decodes into 0 .. 85 and prints as two digits. -/
theorem decode_mask7F (b : u8) :
    0 ≤ bcd2dec (to_u8 (b.val &&& 0x7F)) ∧ bcd2dec (to_u8 (b.val &&& 0x7F)) ≤ 85 ∧
    number 2 (bcd2dec (to_u8 (b.val &&& 0x7F)))
      = two_digits (bcd2dec (to_u8 (b.val &&& 0x7F))) := by
  revert b
  decide

set_option maxRecDepth 100000 in
/-- Under the mask `0x3F` a byte decodes into 0 .. 45 and prints as two digits. -/
theorem decode_mask3F (b : u8) :
    0 ≤ bcd2dec (to_u8 (b.val &&& 0x3F)) ∧ bcd2dec (to_u8 (b.val &&& 0x3F)) ≤ 45 ∧
    number 2 (bcd2dec (to_u8 (b.val &&& 0x3F)))
      = two_digits (bcd2dec (to_u8 (b.val &&& 0x3F))) := by
  revert b
  decide

set_option maxRecDepth 100000 in
/-- Under the mask `0x1F` a byte decodes into 0 .. 25 and prints as two digits. -/
theorem decode_mask1F (b : u8) :
    0 ≤ bcd2dec (to_u8 (b.val &&& 0x1F)) ∧ bcd2dec (to_u8 (b.val &&& 0x1F)) ≤ 25 ∧
    number 2 (bcd2dec (to_u8 (b.val &&& 0x1F)))
      = two_digits (bcd2dec (to_u8 (b.val &&& 0x1F))) := by
  revert b
  decide

set_option maxRecDepth 100000 in
/-- Under the mask `0x07` the weekday byte gives 0 .. 7, its low three bits, and
prints as one digit. -/
theorem decode_mask07 (b : u8) :
    ((b.val &&& 0x07 : Nat) : Int) = ((b.val % 8 : Nat) : Int) ∧
    0 ≤ ((b.val &&& 0x07 : Nat) : Int) ∧ ((b.val &&& 0x07 : Nat) : Int) ≤ 7 ∧
    number 0 ((b.val &&& 0x07 : Nat) : Int) = [dec_digit ((b.val &&& 0x07 : Nat) : Int)] := by
  revert b
  decide

set_option maxRecDepth 100000 in
/-- The years byte, which has no mask, decodes into 0 .. 165: up to 0x99 into at
most 99, printed as two digits, and from 0x9A on into 100 or more, printed as
three characters. -/
theorem decode_year_byte (b : u8) :
    0 ≤ bcd2dec b ∧ bcd2dec b ≤ 165 ∧
    (if b.val ≤ 0x99 then bcd2dec b ≤ 99 ∧ number 2 (bcd2dec b) = two_digits (bcd2dec b)
     else 100 ≤ bcd2dec b ∧ (number 2 (bcd2dec b)).length = 3) := by
  revert b
  decide

/-- The text of `mini_time_show` for any block: every field but the year is
two digits, the weekday one digit. -/
theorem show_text_shape (b0 b1 b2 b3 b4 b5 b6 : u8) :
    mini_time_show_text [b0, b1, b2, b3, b4, b5, b6]
      = time_text (number 2 (bcd2dec b6)) (mini_time_show_decode [b0, b1, b2, b3, b4, b5, b6]) := by
  have hlen : (number 2 (bcd2dec b6)).length ≤ 3 := by
    have h := (decode_year_byte b6).2.2
    split_ifs at h with hb
    · rw [h.2]; simp [two_digits]
    · rw [h.2]
  simp only [mini_time_show_text, mini_time_show_format, scnprintf, time_text,
    mini_time_show_decode, List.getD_cons_zero, List.getD_cons_succ,
    (decode_mask7F b0).2.2, (decode_mask7F b1).2.2, (decode_mask3F b2).2.2,
    (decode_mask3F b3).2.2, (decode_mask1F b5).2.2, (decode_mask07 b4).2.2.2]
  apply List.take_of_length_le
  simp [two_digits, PAGE_SIZE]
  omega


/-! ## Claims on the text of `mini_time_show` -/

/-- C13 as stated fails: the years byte has no mask, and 0x9A decodes into the
year field 100, printed with three digits in a text of 28 characters. -/
theorem C13_output_shape_counterexample :
    (mini_time_show_decode [0x45, 0x30, 0x08, 0x15, 0x00, 0x03, 0x9A]).yr = 100 ∧
    mini_time_show_text [0x45, 0x30, 0x08, 0x15, 0x00, 0x03, 0x9A]
      = "20100-03-15 08:30:45 (wk=0)\n".toList ∧
    (mini_time_show_text [0x45, 0x30, 0x08, 0x15, 0x00, 0x03, 0x9A]).length = 28 := by
  decide

/-- C13, amended. For every 7-byte block the masks keep second and minute in
0 .. 85, hour and day in 0 .. 45 and month in 0 .. 25, each printed as two
digits, and the weekday is one digit; the year, read without a mask, lies in
0 .. 165. With a years byte up to 0x99 the year is at most 99 and the text is
"20YY-MM-DD hh:mm:ss (wk=W)" with a newline, 27 characters; with a years byte
from 0x9A on the year is 100 or more and the text has 28 characters. The value
`mini_time_show` returns is the length of the text. -/
theorem C13_output_shape_amended (b0 b1 b2 b3 b4 b5 b6 : u8) (regs : Nat → u8)
    (log : List Transfer) :
    (0 ≤ (mini_time_show_decode [b0, b1, b2, b3, b4, b5, b6]).sec ∧ (mini_time_show_decode [b0, b1, b2, b3, b4, b5, b6]).sec ≤ 85 ∧ 0 ≤ (mini_time_show_decode [b0, b1, b2, b3, b4, b5, b6]).min ∧ (mini_time_show_decode [b0, b1, b2, b3, b4, b5, b6]).min ≤ 85 ∧
      0 ≤ (mini_time_show_decode [b0, b1, b2, b3, b4, b5, b6]).hour ∧ (mini_time_show_decode [b0, b1, b2, b3, b4, b5, b6]).hour ≤ 45 ∧ 0 ≤ (mini_time_show_decode [b0, b1, b2, b3, b4, b5, b6]).day ∧ (mini_time_show_decode [b0, b1, b2, b3, b4, b5, b6]).day ≤ 45 ∧
      0 ≤ (mini_time_show_decode [b0, b1, b2, b3, b4, b5, b6]).mon ∧ (mini_time_show_decode [b0, b1, b2, b3, b4, b5, b6]).mon ≤ 25 ∧ 0 ≤ (mini_time_show_decode [b0, b1, b2, b3, b4, b5, b6]).yr ∧ (mini_time_show_decode [b0, b1, b2, b3, b4, b5, b6]).yr ≤ 165) ∧
    (mini_time_show_text [b0, b1, b2, b3, b4, b5, b6]) = time_text (number 2 (mini_time_show_decode [b0, b1, b2, b3, b4, b5, b6]).yr) (mini_time_show_decode [b0, b1, b2, b3, b4, b5, b6]) ∧
    (if b6.val ≤ 0x99 then
      (mini_time_show_decode [b0, b1, b2, b3, b4, b5, b6]).yr ≤ 99 ∧ (mini_time_show_text [b0, b1, b2, b3, b4, b5, b6]) = time_text (two_digits (mini_time_show_decode [b0, b1, b2, b3, b4, b5, b6]).yr) (mini_time_show_decode [b0, b1, b2, b3, b4, b5, b6]) ∧ (mini_time_show_text [b0, b1, b2, b3, b4, b5, b6]).length = 27
     else 100 ≤ (mini_time_show_decode [b0, b1, b2, b3, b4, b5, b6]).yr ∧ (mini_time_show_text [b0, b1, b2, b3, b4, b5, b6]).length = 28) ∧
    (mini_time_show ⟨regs, [], log⟩).1
      = (((mini_time_show ⟨regs, [], log⟩).2.1.length : Nat) : Int) := by
  have hshape := show_text_shape b0 b1 b2 b3 b4 b5 b6
  have hy := decode_year_byte b6
  refine ⟨⟨(decode_mask7F b0).1, (decode_mask7F b0).2.1, (decode_mask7F b1).1,
    (decode_mask7F b1).2.1, (decode_mask3F b2).1, (decode_mask3F b2).2.1,
    (decode_mask3F b3).1, (decode_mask3F b3).2.1, (decode_mask1F b5).1,
    (decode_mask1F b5).2.1, hy.1, hy.2.1⟩, hshape, ?_, rfl⟩
  have hyr := hy.2.2
  rw [hshape, decode_yr]
  split_ifs at hyr ⊢ with hb
  · refine ⟨hyr.1, by rw [hyr.2], ?_⟩
    rw [hyr.2]
    simp [time_text, two_digits]
  · refine ⟨hyr.1, ?_⟩
    simp [time_text, two_digits, hyr.2]

/-- C14 as stated fails: a weekday byte with its three low bits set decodes
into 7, outside 0 .. 6, and is printed as such. -/
theorem C14_weekday_counterexample :
    (mini_time_show_decode [0x45, 0x30, 0x08, 0x15, 0x07, 0x03, 0x24]).wk = 7 ∧
    mini_time_show_text [0x45, 0x30, 0x08, 0x15, 0x07, 0x03, 0x24]
      = "2024-03-15 08:30:45 (wk=7)\n".toList := by
  decide

/-- C14, amended. For every 7-byte block the weekday field is the weekday byte
masked with 0x07 (its low three bits), taken as it is without BCD decoding; it
lies in 0 .. 7 and is printed as the one digit W of the text. -/
theorem C14_weekday_amended (b0 b1 b2 b3 b4 b5 b6 : u8) :
    (mini_time_show_decode [b0, b1, b2, b3, b4, b5, b6]).wk = ((b4.val &&& 0x07 : Nat) : Int) ∧
    (mini_time_show_decode [b0, b1, b2, b3, b4, b5, b6]).wk = ((b4.val % 8 : Nat) : Int) ∧
    0 ≤ (mini_time_show_decode [b0, b1, b2, b3, b4, b5, b6]).wk ∧ (mini_time_show_decode [b0, b1, b2, b3, b4, b5, b6]).wk ≤ 7 ∧
    number 0 (mini_time_show_decode [b0, b1, b2, b3, b4, b5, b6]).wk = [dec_digit (mini_time_show_decode [b0, b1, b2, b3, b4, b5, b6]).wk] ∧
    (mini_time_show_text [b0, b1, b2, b3, b4, b5, b6]) = time_text (number 2 (mini_time_show_decode [b0, b1, b2, b3, b4, b5, b6]).yr) (mini_time_show_decode [b0, b1, b2, b3, b4, b5, b6]) := by
  have h := decode_mask07 b4
  exact ⟨rfl, h.1, h.2.1, h.2.2.1, h.2.2.2, show_text_shape b0 b1 b2 b3 b4 b5 b6⟩


/-! ## Claims on the bus -/

/-- The read handler when its first transfer fails. -/
theorem mini_time_show_of_write_fail (bus : Bus) (hneg : bus.status.headD 0 < 0) :
    mini_time_show bus
      = (bus.status.headD 0, [],
          ⟨bus.regs, bus.status.tail, bus.log ++ [Transfer.write_byte_data REG_SECONDS 0]⟩) := by
  simp only [mini_time_show, i2c_smbus_write_byte_data, Bus.issue, hneg, if_true]

/-- The read handler when its first transfer succeeds and the block read fails. -/
theorem mini_time_show_of_read_fail (bus : Bus) (hok : ¬ bus.status.headD 0 < 0)
    (hneg : bus.status.tail.headD 0 < 0) :
    mini_time_show bus
      = (bus.status.tail.headD 0, [],
          ⟨write_regs bus.regs REG_SECONDS.val [0], bus.status.tail.tail,
            bus.log ++ [Transfer.write_byte_data REG_SECONDS 0]
              ++ [Transfer.read_i2c_block_data REG_SECONDS 7]⟩) := by
  simp only [mini_time_show, i2c_smbus_write_byte_data, i2c_smbus_read_i2c_block_data,
    Bus.issue, hok, if_false, lt_self_iff_false, hneg, if_true]

/-- C15. Bus error propagation: when the first transfer of `mini_time_show`
fails with a negative code, or the first succeeds and the block read fails, or
the block write of `mini_time_store` fails, the handler returns that code
unchanged, the failed transfer is the last one issued, and `mini_time_show`
stores no text. -/
theorem C15_bus_error_propagation (bus : Bus) (e : Int) (he : e < 0) :
    (bus.status.headD 0 = e →
      (mini_time_show bus).1 = e ∧ (mini_time_show bus).2.1 = [] ∧
      (mini_time_show bus).2.2.log = bus.log ++ [Transfer.write_byte_data REG_SECONDS 0]) ∧
    (0 ≤ bus.status.headD 0 → bus.status.tail.headD 0 = e →
      (mini_time_show bus).1 = e ∧ (mini_time_show bus).2.1 = [] ∧
      (mini_time_show bus).2.2.log
        = bus.log ++ [Transfer.write_byte_data REG_SECONDS 0,
            Transfer.read_i2c_block_data REG_SECONDS 7]) ∧
    (∀ (buf : List Char) (count : Nat) (Y M D h m s : Int),
      mini_time_store_scan buf = [Y, M, D, h, m, s] → 2000 ≤ Y → Y ≤ 2099 →
      bus.status.headD 0 = e →
      (mini_time_store bus buf count).1 = e ∧
      (mini_time_store bus buf count).2.log
        = bus.log ++ [Transfer.write_i2c_block_data REG_SECONDS
            (mini_time_store_encode Y M D h m s)] ∧
      (mini_time_store bus buf count).2.regs = bus.regs) := by
  refine ⟨fun h1 => ?_, fun h0 h1 => ?_, fun buf count Y M D h m s hscan hlo hhi h1 => ?_⟩
  · subst h1
    rw [mini_time_show_of_write_fail bus he]
    exact ⟨rfl, rfl, rfl⟩
  · subst h1
    rw [mini_time_show_of_read_fail bus (by omega) he]
    refine ⟨rfl, rfl, ?_⟩
    simp
  · subst h1
    have hwin : ¬ (Y < 2000 ∨ Y > 2099) := by omega
    rw [mini_time_store_of_scan bus buf count Y M D h m s hscan, if_neg hwin]
    simp only [i2c_smbus_write_i2c_block_data, Bus.issue, he, if_true]
    exact ⟨trivial, trivial, trivial⟩

/-- Witness of C15: a bus that fails at once with -5, and one that fails the
second transfer with -6. -/
theorem C15_bus_error_propagation_witness :
    ((mini_time_show ⟨regs_2024, [-5], []⟩).1 = -5 ∧
      (mini_time_show ⟨regs_2024, [-5], []⟩).2.1 = [] ∧
      (mini_time_show ⟨regs_2024, [-5], []⟩).2.2.log
        = [Transfer.write_byte_data REG_SECONDS 0]) ∧
    ((mini_time_show ⟨regs_2024, [0, -6], []⟩).1 = -6 ∧
      (mini_time_show ⟨regs_2024, [0, -6], []⟩).2.1 = [] ∧
      (mini_time_show ⟨regs_2024, [0, -6], []⟩).2.2.log
        = [Transfer.write_byte_data REG_SECONDS 0,
            Transfer.read_i2c_block_data REG_SECONDS 7]) ∧
    ((mini_time_store ⟨regs_2024, [-5], []⟩ "2025-01-02 03:04:05".toList 19).1 = -5 ∧
      (mini_time_store ⟨regs_2024, [-5], []⟩ "2025-01-02 03:04:05".toList 19).2.log
        = [Transfer.write_i2c_block_data REG_SECONDS
            (mini_time_store_encode 2025 1 2 3 4 5)] ∧
      (mini_time_store ⟨regs_2024, [-5], []⟩ "2025-01-02 03:04:05".toList 19).2.regs
        = regs_2024) :=
  ⟨(C15_bus_error_propagation ⟨regs_2024, [-5], []⟩ (-5) (by decide)).1 rfl,
    (C15_bus_error_propagation ⟨regs_2024, [0, -6], []⟩ (-6) (by decide)).2.1 (by decide) rfl,
    (C15_bus_error_propagation ⟨regs_2024, [-5], []⟩ (-5) (by decide)).2.2
      "2025-01-02 03:04:05".toList 19 2025 1 2 3 4 5 (by decide) (by decide) (by decide) rfl⟩

set_option maxRecDepth 100000 in
/-- The write masks of seconds, minutes, hours and days leave no bit outside
`0x7F` and `0x3F`, whatever byte they are applied to. -/
theorem write_mask_clears (b : u8) :
    (to_u8 (b.val &&& 0x7F)).val &&& 0x80 = 0 ∧ (to_u8 (b.val &&& 0x3F)).val &&& 0xC0 = 0 := by
  revert b
  decide

/-- The seconds, minutes, hours, days and weekday bytes built by
`mini_time_store_encode` have no bit outside their masks, for all inputs. -/
theorem encode_reserved_bits (Y M D h m s : Int) :
    ((mini_time_store_encode Y M D h m s).getD 0 0).val &&& 0x80 = 0 ∧
    ((mini_time_store_encode Y M D h m s).getD 1 0).val &&& 0x80 = 0 ∧
    ((mini_time_store_encode Y M D h m s).getD 2 0).val &&& 0xC0 = 0 ∧
    ((mini_time_store_encode Y M D h m s).getD 3 0).val &&& 0xC0 = 0 ∧
    (mini_time_store_encode Y M D h m s).getD 4 0 = 0 :=
  ⟨(write_mask_clears (dec2bcd s)).1, (write_mask_clears (dec2bcd m)).1,
    (write_mask_clears (dec2bcd h)).2, (write_mask_clears (dec2bcd D)).2, rfl⟩

/-- C16. Reserved bits on the write path, evaluated on "2024-31-15 08:30:45":
the months byte written is `dec2bcd (31 & 0x1F) = 0x31`, which has bit 5 set,
outside the mask 0x1F; the other bytes are within their masks. -/
theorem C16_month_byte_at_31 :
    mini_time_store_scan "2024-31-15 08:30:45".toList = [2024, 31, 15, 8, 30, 45] ∧
    (mini_time_store idle_bus "2024-31-15 08:30:45".toList 19).2.log
      = [Transfer.write_i2c_block_data REG_SECONDS
          [0x45, 0x30, 0x08, 0x15, 0x00, 0x31, 0x24]] ∧
    ((mini_time_store_encode 2024 31 15 8 30 45).getD 5 0).val &&& 0xE0 = 0x20 ∧
    ((mini_time_store_encode 2024 31 15 8 30 45).getD 5 0).val &&& 0x1F = 0x11 := by
  decide

/-- The read handler on a bus without scripted failures. -/
theorem mini_time_show_of_success (regs : Nat → u8) (log : List Transfer) :
    mini_time_show ⟨regs, [], log⟩
      = ((((mini_time_show_text (read_regs (write_regs regs 3 [0]) 3 7)).length : Nat) : Int),
          mini_time_show_text (read_regs (write_regs regs 3 [0]) 3 7),
          (⟨write_regs regs 3 [0], [],
            log ++ [Transfer.write_byte_data REG_SECONDS 0,
              Transfer.read_i2c_block_data REG_SECONDS 7]⟩ : Bus)) := by
  simp only [mini_time_show, i2c_smbus_write_byte_data, i2c_smbus_read_i2c_block_data,
    Bus.issue, List.headD_nil, lt_self_iff_false, if_false, List.tail_nil, Nat.cast_ofNat,
    List.append_assoc, List.singleton_append]
  rfl

/-- C17. The read path and the time registers, evaluated on a bus without
failures: `mini_time_show` issues "write byte data" of 0 to register 0x03 and
then the block read of 7 bytes, so the seconds register holds 0 afterwards,
whatever it held; the registers 0x04 to 0x09 keep their values. On the
registers of 2024-03-15 08:30:45 the text stored is that of 08:30:00. -/
theorem C17_show_writes_seconds (regs : Nat → u8) (log : List Transfer) :
    (mini_time_show ⟨regs, [], log⟩).2.2.log
      = log ++ [Transfer.write_byte_data REG_SECONDS 0,
          Transfer.read_i2c_block_data REG_SECONDS 7] ∧
    (mini_time_show ⟨regs, [], log⟩).2.2.regs 3 = 0 ∧
    read_regs (mini_time_show ⟨regs, [], log⟩).2.2.regs 4 6 = read_regs regs 4 6 ∧
    read_regs regs_2024 3 7 = [0x45, 0x30, 0x08, 0x15, 0x00, 0x03, 0x24] ∧
    read_regs (mini_time_show ⟨regs_2024, [], []⟩).2.2.regs 3 7
      = [0x00, 0x30, 0x08, 0x15, 0x00, 0x03, 0x24] ∧
    (mini_time_show ⟨regs_2024, [], []⟩).2.1 = "2024-03-15 08:30:00 (wk=0)\n".toList := by
  rw [mini_time_show_of_success]
  refine ⟨rfl, ?_, ?_, by decide, by decide, by decide⟩
  · simp [write_regs]
  · simp [write_regs, read_regs, List.range_succ]


/-! ## Claims on the extent of the round trips -/

/-- Seconds and minutes: only values from 0 to 79 come back from packing, the
masks `0x7F` and unpacking. -/
theorem bcd_mask7F_fixed (d : Int)
    (hd : bcd2dec (to_u8 ((to_u8 ((dec2bcd d).val &&& 0x7F)).val &&& 0x7F)) = d) :
    0 ≤ d ∧ d ≤ 79 := by
  have hb := decode_mask7F (to_u8 ((dec2bcd d).val &&& 0x7F))
  rw [hd] at hb
  obtain ⟨h0, h1, -⟩ := hb
  interval_cases d <;> first | exact ⟨by decide, by decide⟩ | exact absurd hd (by decide)

/-- Hours and days: only values from 0 to 39 come back from packing, the masks
`0x3F` and unpacking. -/
theorem bcd_mask3F_fixed (d : Int)
    (hd : bcd2dec (to_u8 ((to_u8 ((dec2bcd d).val &&& 0x3F)).val &&& 0x3F)) = d) :
    0 ≤ d ∧ d ≤ 39 := by
  have hb := decode_mask3F (to_u8 ((dec2bcd d).val &&& 0x3F))
  rw [hd] at hb
  obtain ⟨h0, h1, -⟩ := hb
  interval_cases d <;> first | exact ⟨by decide, by decide⟩ | exact absurd hd (by decide)

/-- Months: only values from 0 to 19 come back from the mask `0x1F`, packing,
the mask `0x1F` and unpacking. -/
theorem bcd_month_fixed (d : Int)
    (hd : bcd2dec (to_u8 ((dec2bcd ((int_bits d &&& 0x1F : Nat) : Int)).val &&& 0x1F)) = d) :
    0 ≤ d ∧ d ≤ 19 := by
  have hb := decode_mask1F (dec2bcd ((int_bits d &&& 0x1F : Nat) : Int))
  rw [hd] at hb
  obtain ⟨h0, h1, -⟩ := hb
  interval_cases d <;> first | exact ⟨by decide, by decide⟩ | exact absurd hd (by decide)

/-- C18. Exact extent of the lenient round trip: for six integers with the
year in [2000,2099], decoding the block built by `mini_time_store` gives back
month, day, hour, minute and second all together if and only if
0 ≤ s ≤ 79, 0 ≤ m ≤ 79, 0 ≤ h ≤ 39, 0 ≤ D ≤ 39 and 0 ≤ M ≤ 19. -/
theorem C18_round_trip_extent (Y M D h m s : Int) (_hY : 2000 ≤ Y ∧ Y ≤ 2099) :
    ((mini_time_show_decode (mini_time_store_encode Y M D h m s)).mon = M ∧ (mini_time_show_decode (mini_time_store_encode Y M D h m s)).day = D ∧ (mini_time_show_decode (mini_time_store_encode Y M D h m s)).hour = h ∧ (mini_time_show_decode (mini_time_store_encode Y M D h m s)).min = m ∧ (mini_time_show_decode (mini_time_store_encode Y M D h m s)).sec = s) ↔
    ((0 ≤ s ∧ s ≤ 79) ∧ (0 ≤ m ∧ m ≤ 79) ∧ (0 ≤ h ∧ h ≤ 39) ∧ (0 ≤ D ∧ D ≤ 39) ∧
      (0 ≤ M ∧ M ≤ 19)) := by
  constructor
  · rintro ⟨hM, hD, hh, hm, hs⟩
    exact ⟨bcd_mask7F_fixed s hs, bcd_mask7F_fixed m hm, bcd_mask3F_fixed h hh,
      bcd_mask3F_fixed D hD, bcd_month_fixed M hM⟩
  · rintro ⟨hs, hm, hh, hD, hM⟩
    exact ⟨bcd_month_round_trip M hM.1 hM.2, bcd_mask3F_round_trip D hD.1 hD.2,
      bcd_mask3F_round_trip h hh.1 hh.2, bcd_mask7F_round_trip m hm.1 hm.2,
      bcd_mask7F_round_trip s hs.1 hs.2⟩

/-- Witness of C18: the largest values that come back, and second 80 that does not. -/
theorem C18_round_trip_extent_witness :
    ((mini_time_show_decode (mini_time_store_encode 2024 19 39 39 79 79)).mon = 19 ∧
      (mini_time_show_decode (mini_time_store_encode 2024 19 39 39 79 79)).day = 39 ∧
      (mini_time_show_decode (mini_time_store_encode 2024 19 39 39 79 79)).hour = 39 ∧
      (mini_time_show_decode (mini_time_store_encode 2024 19 39 39 79 79)).min = 79 ∧
      (mini_time_show_decode (mini_time_store_encode 2024 19 39 39 79 79)).sec = 79) ∧
    ¬ ((mini_time_show_decode (mini_time_store_encode 2024 19 39 39 79 80)).mon = 19 ∧
      (mini_time_show_decode (mini_time_store_encode 2024 19 39 39 79 80)).day = 39 ∧
      (mini_time_show_decode (mini_time_store_encode 2024 19 39 39 79 80)).hour = 39 ∧
      (mini_time_show_decode (mini_time_store_encode 2024 19 39 39 79 80)).min = 79 ∧
      (mini_time_show_decode (mini_time_store_encode 2024 19 39 39 79 80)).sec = 80) :=
  ⟨(C18_round_trip_extent 2024 19 39 39 79 79 (by decide)).mpr (by decide),
    fun hrt => absurd ((C18_round_trip_extent 2024 19 39 39 79 80 (by decide)).mp hrt)
      (by decide)⟩

set_option maxRecDepth 100000 in
/-- A seconds or minutes byte with BCD nibbles, at most 0x79, is rebuilt from
its decoded value. -/
theorem encode_decode_mask7F (b : u8) :
    b.val >>> 4 ≤ 9 → b.val &&& 0x0F ≤ 9 → b.val ≤ 0x79 →
      to_u8 ((dec2bcd (bcd2dec (to_u8 (b.val &&& 0x7F)))).val &&& 0x7F) = b := by
  revert b
  decide

set_option maxRecDepth 100000 in
/-- An hours or days byte with BCD nibbles, at most 0x39, is rebuilt from its
decoded value. -/
theorem encode_decode_mask3F (b : u8) :
    b.val >>> 4 ≤ 9 → b.val &&& 0x0F ≤ 9 → b.val ≤ 0x39 →
      to_u8 ((dec2bcd (bcd2dec (to_u8 (b.val &&& 0x3F)))).val &&& 0x3F) = b := by
  revert b
  decide

set_option maxRecDepth 100000 in
/-- A months byte with BCD nibbles, at most 0x19, is rebuilt from its decoded
value. -/
theorem encode_decode_month (b : u8) :
    b.val >>> 4 ≤ 9 → b.val &&& 0x0F ≤ 9 → b.val ≤ 0x19 →
      dec2bcd ((int_bits (bcd2dec (to_u8 (b.val &&& 0x1F))) &&& 0x1F : Nat) : Int) = b := by
  revert b
  decide

set_option maxRecDepth 100000 in
/-- A years byte with BCD nibbles is rebuilt from the year 2000 + YY. -/
theorem encode_decode_year (b : u8) :
    b.val >>> 4 ≤ 9 → b.val &&& 0x0F ≤ 9 → b.val ≤ 0x99 →
      dec2bcd ((2000 + bcd2dec b).tmod 100) = b := by
  revert b
  decide

/-- C19. Decode-then-encode is the identity on canonical blocks: for a block
whose bytes have both nibbles at most 9, with seconds and minutes at most 0x79,
hours and days at most 0x39, months at most 0x19, weekday 0 and years from 0x00
to 0x99, encoding the fields decoded by `mini_time_show` (with the year
2000 + YY) gives the same 7 bytes. -/
theorem C19_decode_encode_identity (b0 b1 b2 b3 b5 b6 : u8)
    (h0 : bcd_byte b0 ∧ b0.val ≤ 0x79) (h1 : bcd_byte b1 ∧ b1.val ≤ 0x79)
    (h2 : bcd_byte b2 ∧ b2.val ≤ 0x39) (h3 : bcd_byte b3 ∧ b3.val ≤ 0x39)
    (h5 : bcd_byte b5 ∧ b5.val ≤ 0x19) (h6 : bcd_byte b6 ∧ b6.val ≤ 0x99) :
    mini_time_store_encode (2000 + (mini_time_show_decode [b0, b1, b2, b3, 0, b5, b6]).yr) (mini_time_show_decode [b0, b1, b2, b3, 0, b5, b6]).mon (mini_time_show_decode [b0, b1, b2, b3, 0, b5, b6]).day (mini_time_show_decode [b0, b1, b2, b3, 0, b5, b6]).hour (mini_time_show_decode [b0, b1, b2, b3, 0, b5, b6]).min (mini_time_show_decode [b0, b1, b2, b3, 0, b5, b6]).sec
      = [b0, b1, b2, b3, 0, b5, b6] := by
  simp only [mini_time_store_encode, mini_time_show_decode, List.getD_cons_zero,
    List.getD_cons_succ]
  rw [encode_decode_mask7F b0 h0.1.1 h0.1.2 h0.2, encode_decode_mask7F b1 h1.1.1 h1.1.2 h1.2,
    encode_decode_mask3F b2 h2.1.1 h2.1.2 h2.2, encode_decode_mask3F b3 h3.1.1 h3.1.2 h3.2,
    encode_decode_month b5 h5.1.1 h5.1.2 h5.2, encode_decode_year b6 h6.1.1 h6.1.2 h6.2]

/-- Witness of C19 on the block of 2099-12-31 23:59:59. -/
theorem C19_decode_encode_identity_witness :
    mini_time_store_encode
        (2000 + (mini_time_show_decode [0x59, 0x59, 0x23, 0x31, 0, 0x12, 0x99]).yr)
        (mini_time_show_decode [0x59, 0x59, 0x23, 0x31, 0, 0x12, 0x99]).mon
        (mini_time_show_decode [0x59, 0x59, 0x23, 0x31, 0, 0x12, 0x99]).day
        (mini_time_show_decode [0x59, 0x59, 0x23, 0x31, 0, 0x12, 0x99]).hour
        (mini_time_show_decode [0x59, 0x59, 0x23, 0x31, 0, 0x12, 0x99]).min
        (mini_time_show_decode [0x59, 0x59, 0x23, 0x31, 0, 0x12, 0x99]).sec
      = [0x59, 0x59, 0x23, 0x31, 0, 0x12, 0x99] :=
  C19_decode_encode_identity 0x59 0x59 0x23 0x31 0x12 0x99
    (by unfold bcd_byte; decide) (by unfold bcd_byte; decide) (by unfold bcd_byte; decide)
    (by unfold bcd_byte; decide) (by unfold bcd_byte; decide) (by unfold bcd_byte; decide)

end PCF8523
